import Mathlib

/-!
# gobject-list: lifecycle tracking core

A shallow embedding of `gobject-list.c` (an LD_PRELOAD library that tracks the
lifetime of GObjects) together with theorems about its bookkeeping:
the live registry `objects`, the check-point sets `added` / `removed`, the
display-flag configuration, the dump routines and the locking discipline.

Conventions of the embedding.

* A `GObject *` is its address, a `Nat`; `NULL` is `0`.
* `G_OBJECT_TYPE_NAME (obj)` and `obj->ref_count` are read from the monitored
  program's memory; the event handlers receive the values read at the call,
  the dump routines receive the memory as a function `Heap`.
* A `GHashTable` created with `g_hash_table_new (NULL, NULL)` (direct hash,
  pointer equality) is a list of key/value pairs without duplicate keys, the
  list order standing for the table's iteration order.
* `objects` and `added` only ever store the value `GUINT_TO_POINTER (TRUE)`,
  so their value type is `Unit` and `g_hash_table_lookup (..) == NULL` is key
  absence.
* Everything a handler does that is visible from outside its return value is
  appended to `World.log`: taking and releasing the two mutexes, every access
  to the tracked state, and every line written to stderr / stdout.
* `get_func`'s one-time initialisation (opening libgobject, installing the
  signal handlers, creating the empty tables) has already run: its result is
  `World.init`.
-/

namespace GObjectList

/-! ## GHashTable -/

/-- A GLib hash table: key/value pairs in iteration order, keys all distinct. -/
structure GHashTable (K V : Type) where
  entries : List (K × V)
  nodup : (entries.map Prod.fst).Nodup

namespace GHashTable

variable {K V : Type}

/-- The keys of the table, in iteration order. -/
def keys (h : GHashTable K V) : List K := h.entries.map Prod.fst

theorem ext_entries {h h' : GHashTable K V} (e : h.entries = h'.entries) : h = h' := by
  cases h; cases h'; cases e; rfl

instance [DecidableEq K] [DecidableEq V] : DecidableEq (GHashTable K V) := fun a b =>
  if e : a.entries = b.entries then isTrue (ext_entries e)
  else isFalse (fun h => e (by rw [h]))

end GHashTable

section HashOps

theorem nodup_filter_keys {K V : Type} (p : K × V → Bool) (l : List (K × V))
    (hl : (l.map Prod.fst).Nodup) : ((l.filter p).map Prod.fst).Nodup :=
  List.Nodup.sublist (List.Sublist.map _ (List.filter_sublist l)) hl

variable {K V : Type} [DecidableEq K]

/-- Replace the value stored under `k`, or append a new pair when `k` is absent. -/
def insertEntry (k : K) (v : V) : List (K × V) → List (K × V)
  | [] => [(k, v)]
  | e :: es => if e.1 = k then (k, v) :: es else e :: insertEntry k v es

theorem keys_insertEntry (k : K) (v : V) (l : List (K × V)) :
    (insertEntry k v l).map Prod.fst =
      if k ∈ l.map Prod.fst then l.map Prod.fst else l.map Prod.fst ++ [k] := by
  induction l with
  | nil => simp [insertEntry]
  | cons e es ih =>
    by_cases h : e.1 = k
    · simp [insertEntry, h]
    · have h' : ¬ k = e.1 := fun c => h c.symm
      simp only [insertEntry, h, if_false, List.map_cons, ih, List.mem_cons, h', false_or]
      split <;> simp

theorem nodup_insertEntry (k : K) (v : V) (l : List (K × V))
    (hl : (l.map Prod.fst).Nodup) : ((insertEntry k v l).map Prod.fst).Nodup := by
  rw [keys_insertEntry]
  split
  · exact hl
  · rename_i hk
    exact List.Nodup.append hl (List.nodup_singleton k) (by simpa using hk)

/-- `g_hash_table_new (NULL, NULL)`: the empty table. -/
def g_hash_table_new : GHashTable K V := ⟨[], List.nodup_nil⟩

/-- `g_hash_table_lookup`: the value stored under `k`; `none` is the `NULL` result. -/
def g_hash_table_lookup (h : GHashTable K V) (k : K) : Option V :=
  (h.entries.find? (fun e => decide (e.1 = k))).map Prod.snd

/-- `g_hash_table_insert`: store `v` under `k`, replacing an older value. -/
def g_hash_table_insert (h : GHashTable K V) (k : K) (v : V) : GHashTable K V :=
  ⟨insertEntry k v h.entries, nodup_insertEntry k v h.entries h.nodup⟩

/-- `g_hash_table_remove`: drop the pair stored under `k`, if any. -/
def g_hash_table_remove (h : GHashTable K V) (k : K) : GHashTable K V :=
  ⟨h.entries.filter (fun e => decide (e.1 ≠ k)), nodup_filter_keys _ h.entries h.nodup⟩

/-- `g_hash_table_remove_all`: drop every pair. -/
def g_hash_table_remove_all (_h : GHashTable K V) : GHashTable K V := ⟨[], List.nodup_nil⟩

/-- `g_hash_table_size`: the number of pairs. -/
def g_hash_table_size (h : GHashTable K V) : Nat := h.entries.length

end HashOps

/-! ## Display flags and the type filter -/

/-- Value of the enumerator DISPLAY_FLAG_NONE. -/
def DISPLAY_FLAG_NONE : Nat := 0
/-- Value of the enumerator DISPLAY_FLAG_CREATE. -/
def DISPLAY_FLAG_CREATE : Nat := 1
/-- Value of the enumerator DISPLAY_FLAG_REFS, `1 << 2`. -/
def DISPLAY_FLAG_REFS : Nat := 1 <<< 2
/-- Value of the enumerator DISPLAY_FLAG_BACKTRACE, `1 << 3`. -/
def DISPLAY_FLAG_BACKTRACE : Nat := 1 <<< 3
/-- Value of the enumerator DISPLAY_FLAG_TRACEREFS, `1 << 4`. -/
def DISPLAY_FLAG_TRACEREFS : Nat := 1 <<< 4
/-- Value of the enumerator DISPLAY_FLAG_ALL. -/
def DISPLAY_FLAG_ALL : Nat :=
  DISPLAY_FLAG_CREATE ||| DISPLAY_FLAG_REFS ||| DISPLAY_FLAG_BACKTRACE ||| DISPLAY_FLAG_TRACEREFS
/-- Value of the enumerator DISPLAY_FLAG_DEFAULT. -/
def DISPLAY_FLAG_DEFAULT : Nat := DISPLAY_FLAG_CREATE

/-- The table `display_flags_map[]`: token name and flag, in array order. -/
def display_flags_map : List (String × Nat) :=
  [ ("none", DISPLAY_FLAG_NONE),
    ("create", DISPLAY_FLAG_CREATE),
    ("refs", DISPLAY_FLAG_REFS),
    ("backtrace", DISPLAY_FLAG_BACKTRACE),
    ("tracerefs", DISPLAY_FLAG_TRACEREFS),
    ("all", DISPLAY_FLAG_ALL) ]

/-- GLib's `g_ascii_tolower` on a character code: only `A`..`Z` are changed. -/
def g_ascii_tolower (c : Nat) : Nat := if 65 ≤ c ∧ c ≤ 90 then c + 32 else c

/-- The loop of GLib's `g_ascii_strcasecmp` on the characters of two C strings. -/
def strcasecmp_chars : List Char → List Char → Int
  | c1 :: s1, c2 :: s2 =>
    if g_ascii_tolower c1.toNat ≠ g_ascii_tolower c2.toNat then
      (g_ascii_tolower c1.toNat : Int) - (g_ascii_tolower c2.toNat : Int)
    else strcasecmp_chars s1 s2
  | [], [] => 0
  | [], c2 :: _ => - (c2.toNat : Int)
  | c1 :: _, [] => (c1.toNat : Int)

/-- GLib's `g_ascii_strcasecmp`: `0` exactly when the strings agree up to ASCII case. -/
def g_ascii_strcasecmp (s1 s2 : String) : Int := strcasecmp_chars s1.data s2.data

/-- Pieces of a character list between commas (at least one piece). -/
def splitComma : List Char → List (List Char)
  | [] => [[]]
  | c :: cs =>
    if c = ',' then [] :: splitComma cs
    else
      match splitComma cs with
      | [] => [[c]]
      | p :: ps => (c :: p) :: ps

/-- GLib's `g_strsplit (string, ",", 0)`: the empty string gives the empty vector,
any other string its comma-separated pieces (empty pieces included). -/
def g_strsplit (string : String) : List String :=
  if string.data = [] then [] else (splitComma string.data).map String.mk

/-- The inner `for (j ...)` loop of `display_filter`: the first entry of the map
whose name matches the token has its flag or-ed in, then the loop breaks. -/
def display_flags_match (token : String) : List (String × Nat) → Nat → Nat
  | [], display_flags => display_flags
  | item :: rest, display_flags =>
    if g_ascii_strcasecmp token item.1 = 0 then display_flags ||| item.2
    else display_flags_match token rest display_flags

/-- The outer `for (i ...)` loop of `display_filter` over the token vector. -/
def display_flags_loop : List String → Nat → Nat
  | [], display_flags => display_flags
  | token :: tokens, display_flags =>
    display_flags_loop tokens (display_flags_match token display_flags_map display_flags)

/-- The body of `if (display != NULL)` in `display_filter` from `g_strv_length` on:
the mask resolved from a token vector, starting from the current `display_flags`. -/
def display_flags_parse (tokens : List String) (display_flags : Nat) : Nat :=
  display_flags_loop tokens (if tokens.length > 0 then 0 else display_flags)

/-- The mask `display_filter` resolves on its first call, from the value of
`GOBJECT_LIST_DISPLAY` and the initial `display_flags`. -/
def display_flags_resolve (display : Option String) (display_flags : Nat) : Nat :=
  match display with
  | some d => display_flags_parse (g_strsplit d) display_flags
  | none => display_flags

/-! ## Build, environment, memory -/

/-- One iteration of the unwinder loop `while (unw_step (&cursor) > 0)`: what
`unw_get_proc_name` returns for the frame, the name and the offset it yields. -/
structure Frame where
  result : Int
  name : String
  off : Nat
  deriving DecidableEq

/-- What surrounds a call into the library: how it was compiled, the two
environment variables it reads, and the frames the unwinder would walk. -/
structure Env where
  /-- The library was compiled with HAVE_LIBUNWIND. -/
  have_libunwind : Bool
  /-- The library was compiled with WITH_ORIGINS_TRACE. -/
  with_origins_trace : Bool
  /-- The variable GOBJECT_LIST_DISPLAY, `none` when unset. -/
  display : Option String
  /-- The variable GOBJECT_LIST_FILTER, `none` when unset. -/
  filter : Option String
  /-- The frames of the calling thread. -/
  stack : List Frame
  /-- The libunwind constant UNW_ENOMEM. -/
  UNW_ENOMEM : Int

/-- The part of a `GObject` that the dump routines read through the pointer. -/
structure GObject where
  type_name : String
  ref_count : Nat

/-- The monitored program's memory: what is found at an address. -/
abbrev Heap := Nat → GObject

/-- Modelled from the spec: bt-tree.h (BtTrie, bt_create, bt_insert, bt_print_tree)
is not part of the sources. A trie is kept as the label it was created with and
the call stacks inserted into it, each with its ref / unref tag. -/
structure BtTrie where
  label : String
  paths : List (List String × Bool)
  deriving DecidableEq

/-- Modelled from the spec: `bt_create (label)`, a trie without any path. -/
def bt_create (label : String) : BtTrie := ⟨label, []⟩

/-- Modelled from the spec: `bt_insert (root, trace, is_ref)`, one more tagged path. -/
def bt_insert (root : BtTrie) (trace : List String) (is_ref : Bool) : BtTrie :=
  { root with paths := root.paths ++ [(trace, is_ref)] }

/-! ## Tracked state and the log -/

/-- The struct `ObjectData`. -/
structure ObjectData where
  /-- The live objects. -/
  objects : GHashTable Nat Unit
  /-- The objects added since the last check point. -/
  added : GHashTable Nat Unit
  /-- The objects removed since the last check point, with their type name. -/
  removed : GHashTable Nat String
  /-- The trie of every traced type name (only with WITH_ORIGINS_TRACE). -/
  origins : GHashTable String BtTrie
  deriving DecidableEq

/-- The pieces of state the lock `gobject_list` is meant to protect. -/
inductive Resource where
  | objects
  | added
  | removed
  | origins
  | display_flags
  deriving DecidableEq

/-- A line written to stderr or stdout, one constructor per format string. -/
inductive Out where
  /-- The line " ++ Created object %p, %s". -/
  | created (obj : Nat) (obj_name : String)
  /-- The line " -- Finalized object %p, %s". -/
  | finalized (obj : Nat) (obj_name : String)
  /-- The line " +  Reffed object %p, %s; ref_count: %d -> %d". -/
  | reffed (obj : Nat) (obj_name : String) (before after : Nat)
  /-- The line " -  Unreffed object %p, %s; ref_count: %d -> %d". -/
  | unreffed (obj : Nat) (obj_name : String) (before after : Nat)
  /-- The line "#%d  %s + [0x%08x]" of a backtrace. -/
  | frame (stack_num : Nat) (name : String) (off : Nat)
  /-- The line "Error getting frame: %s (%d)". -/
  | frame_error (result : Int)
  /-- The line " - %p, %s: %u refs" of an object dump. -/
  | object (obj : Nat) (type_name : String) (ref_count : Nat)
  /-- The line " - %p, %s" of the removed dump. -/
  | removed_object (obj : Nat) (type_name : String)
  /-- The line "%u objects". -/
  | count (n : Nat)
  /-- A fixed line: a heading or a warning. -/
  | text (s : String)
  /-- The line "#%d" followed by the printed trie (bt_print_tree). -/
  | refs (no : Nat) (trie : BtTrie)
  deriving DecidableEq

/-- What a handler does besides computing: locking, touching state, printing. -/
inductive Act where
  /-- The action G_LOCK (gobject_list). -/
  | lock
  /-- The action G_UNLOCK (gobject_list). -/
  | unlock
  /-- The action g_mutex_lock (&output_mutex). -/
  | output_lock
  /-- The action g_mutex_unlock (&output_mutex). -/
  | output_unlock
  /-- A read or write of one of the protected pieces of state. -/
  | access (r : Resource)
  /-- A line written with g_fprintf (stderr, ..) or g_print. -/
  | print (o : Out)
  /-- The call g_object_weak_ref (obj, _object_finalized, NULL). -/
  | weak_ref (obj : Nat)
  deriving DecidableEq

/-- The global variables of the library, and the log of what it did. -/
structure World where
  /-- The static `gobject_list_state`. -/
  gobject_list_state : ObjectData
  /-- The static `display_flags` of `display_filter`. -/
  display_flags : Nat
  /-- The static `parsed` of `display_filter`. -/
  parsed : Bool
  /-- Everything done so far, oldest first. -/
  log : List Act
  deriving DecidableEq

/-- The globals as `get_func` leaves them after its one-time initialisation:
three (four) empty tables, `display_flags = DISPLAY_FLAG_DEFAULT`, `parsed = FALSE`. -/
def World.init : World :=
  { gobject_list_state :=
      { objects := g_hash_table_new, added := g_hash_table_new,
        removed := g_hash_table_new, origins := g_hash_table_new },
    display_flags := DISPLAY_FLAG_DEFAULT,
    parsed := false,
    log := [] }

/-- Append one action to the log. -/
def World.act (a : Act) (w : World) : World := { w with log := w.log ++ [a] }

/-- The macro G_LOCK (gobject_list). -/
def G_LOCK (w : World) : World := w.act Act.lock
/-- The macro G_UNLOCK (gobject_list). -/
def G_UNLOCK (w : World) : World := w.act Act.unlock
/-- The call g_mutex_lock (&output_mutex). -/
def g_mutex_lock (w : World) : World := w.act Act.output_lock
/-- The call g_mutex_unlock (&output_mutex). -/
def g_mutex_unlock (w : World) : World := w.act Act.output_unlock
/-- A call of g_fprintf (stderr, ..) or g_print writing one line. -/
def g_fprintf (o : Out) (w : World) : World := w.act (Act.print o)
/-- Record that the next statement reads or writes `r`. -/
def touch (r : Resource) (w : World) : World := w.act (Act.access r)

/-- The line an action writes, if it is a print. -/
def Act.line : Act → Option Out
  | Act.print o => some o
  | _ => none

/-- The lines written so far, oldest first. -/
def World.printed (w : World) : List Out := w.log.filterMap Act.line

/-- The three tables of the check-point bookkeeping. -/
def World.tracked (w : World) :
    GHashTable Nat Unit × GHashTable Nat Unit × GHashTable Nat String :=
  (w.gobject_list_state.objects, w.gobject_list_state.added, w.gobject_list_state.removed)

/-! ## The functions of gobject-list.c -/

/-- The block `if (!parsed) { .. }` of `display_filter`: on the first call the
mask is resolved from GOBJECT_LIST_DISPLAY, the warnings about features that
were not compiled in are printed, and `parsed` is set. -/
def display_filter_parse (env : Env) (w : World) : World :=
  let w := touch Resource.display_flags w
  if w.parsed then w
  else
    let w := { w with display_flags := display_flags_resolve env.display w.display_flags }
    let w :=
      if !env.have_libunwind && (w.display_flags &&& DISPLAY_FLAG_BACKTRACE != 0) then
        g_fprintf (Out.text "Warning: backtrace is not available, it needs libunwind") w
      else w
    let w :=
      if !env.with_origins_trace && (w.display_flags &&& DISPLAY_FLAG_TRACEREFS != 0) then
        g_fprintf (Out.text "Warning: tracerefs is not available, it needs libunwind") w
      else w
    { w with parsed := true }

/-- The function `display_filter`: resolves the mask on the first call, then
answers whether any of `flags` is set in it. -/
def display_filter (env : Env) (flags : Nat) (w : World) : Bool × World :=
  let w := display_filter_parse env w
  (w.display_flags &&& flags != 0, w)

/-- The mask `display_filter` works with when called in world `w`: the stored
one when already parsed, the freshly resolved one otherwise. -/
def effective_flags (env : Env) (w : World) : Nat :=
  if w.parsed then w.display_flags else display_flags_resolve env.display w.display_flags

/-- The function `object_filter`: no filter set, or the name is the filter. -/
def object_filter (env : Env) (obj_name : String) : Bool :=
  match env.filter with
  | none => true
  | some filter => decide (filter = obj_name)

/-- The unwinder loop of `save_trace`: the names of the frames, up to the first
frame whose name cannot be read. -/
def save_trace_frames (env : Env) : List Frame → List String
  | [] => []
  | f :: fs =>
    if f.result < 0 ∧ f.result ≠ - env.UNW_ENOMEM then []
    else f.name :: save_trace_frames env fs

/-- The function `save_trace` (compiled with HAVE_LIBUNWIND and WITH_ORIGINS_TRACE). -/
def save_trace (env : Env) (key : String) (is_ref : Bool) (w : World) : World :=
  let (traced, w) := display_filter env DISPLAY_FLAG_TRACEREFS w
  if !traced then w
  else
    let trace := save_trace_frames env env.stack
    let w := touch Resource.origins w
    let root :=
      match g_hash_table_lookup w.gobject_list_state.origins key with
      | some root => root
      | none => bt_create key
    let w := touch Resource.origins w
    { w with gobject_list_state.origins :=
        g_hash_table_insert w.gobject_list_state.origins key (bt_insert root trace is_ref) }

/-- The unwinder loop of `print_trace`: one line per frame, an error line and
the end of the loop at the first frame whose name cannot be read. The offset is
printed as `(unsigned int) off`, that is modulo `2 ^ 32`. -/
def print_trace_frames (env : Env) : List Frame → Nat → World → World
  | [], _, w => w
  | f :: fs, stack_num, w =>
    if f.result < 0 ∧ f.result ≠ - env.UNW_ENOMEM then
      g_fprintf (Out.frame_error f.result) w
    else
      print_trace_frames env fs (stack_num + 1)
        (g_fprintf (Out.frame stack_num f.name (f.off % 2 ^ 32)) w)

/-- The function `print_trace`: empty without HAVE_LIBUNWIND. -/
def print_trace (env : Env) (w : World) : World :=
  if env.have_libunwind then
    let (bt, w) := display_filter env DISPLAY_FLAG_BACKTRACE w
    if !bt then w else print_trace_frames env env.stack 0 w
  else w

/-- The loop of `_dump_object_list` over the keys of the table. -/
def _dump_object_list_loop (heap : Heap) : List Nat → World → World
  | [], w => w
  | obj :: rest, w =>
    if obj = 0 ∨ (heap obj).ref_count = 0 then _dump_object_list_loop heap rest w
    else
      _dump_object_list_loop heap rest
        (g_fprintf (Out.object obj (heap obj).type_name (heap obj).ref_count) w)

/-- The function `_dump_object_list`. -/
def _dump_object_list (heap : Heap) (hash : GHashTable Nat Unit) (w : World) : World :=
  let w := _dump_object_list_loop heap hash.keys w
  g_fprintf (Out.count (g_hash_table_size hash)) w

/-- The function `_sig_usr1_handler`: the live dump. -/
def _sig_usr1_handler (heap : Heap) (w : World) : World :=
  let w := g_fprintf (Out.text "Living Objects:") w
  let w := G_LOCK w
  let w := touch Resource.objects w
  let w := _dump_object_list heap w.gobject_list_state.objects w
  G_UNLOCK w

/-- The loop of `_sig_usr2_handler` over the pairs of the removed table. -/
def _sig_usr2_removed_loop : List (Nat × String) → World → World
  | [], w => w
  | (obj, type) :: rest, w =>
    _sig_usr2_removed_loop rest (g_fprintf (Out.removed_object obj type) w)

/-- The function `_sig_usr2_handler`: the check-point dump. -/
def _sig_usr2_handler (heap : Heap) (w : World) : World :=
  let w := G_LOCK w
  let w := g_fprintf (Out.text "Added Objects:") w
  let w := touch Resource.added w
  let w := _dump_object_list heap w.gobject_list_state.added w
  let w := g_fprintf (Out.text "\nRemoved Objects:") w
  let w := touch Resource.removed w
  let w := _sig_usr2_removed_loop w.gobject_list_state.removed.entries w
  let w := touch Resource.removed w
  let w := g_fprintf (Out.count (g_hash_table_size w.gobject_list_state.removed)) w
  let w := touch Resource.added w
  let w := { w with gobject_list_state.added :=
    g_hash_table_remove_all w.gobject_list_state.added }
  let w := touch Resource.removed w
  let w := { w with gobject_list_state.removed :=
    g_hash_table_remove_all w.gobject_list_state.removed }
  let w := g_fprintf (Out.text "\nSaved new check point") w
  G_UNLOCK w

/-- The `g_hash_table_foreach (origins, print_refs, &no)` of `print_still_alive`. -/
def print_refs_loop : List (String × BtTrie) → Nat → World → World
  | [], _, w => w
  | (_, bt_trie) :: rest, no, w =>
    print_refs_loop rest (no + 1) (g_fprintf (Out.refs (no + 1) bt_trie) w)

/-- The block of `print_still_alive` under `#ifdef WITH_ORIGINS_TRACE`: with
origin tracing on, the tries of all traced type names are printed. -/
def print_still_alive_refs (env : Env) (w : World) : World :=
  if env.with_origins_trace then
    let (traced, w) := display_filter env DISPLAY_FLAG_TRACEREFS w
    if traced then
      let w := g_fprintf (Out.text "\nReferences:") w
      let w := touch Resource.origins w
      print_refs_loop w.gobject_list_state.origins.entries 0 w
    else w
  else w

/-- The function `print_still_alive`: the final dump (`_exiting`, `_sig_bad_handler`). -/
def print_still_alive (env : Env) (heap : Heap) (w : World) : World :=
  let w := g_fprintf (Out.text "\nStill Alive:") w
  let w := G_LOCK w
  let w := touch Resource.objects w
  let w := _dump_object_list heap w.gobject_list_state.objects w
  let w := print_still_alive_refs env w
  G_UNLOCK w

/-- The function `get_func` once the library is initialised: it takes the lock,
looks the symbol up and releases the lock. -/
def get_func (w : World) : World :=
  let w := G_LOCK w
  G_UNLOCK w

/-- The function `_object_finalized`, the weak-reference callback. `obj_name` is
what G_OBJECT_TYPE_NAME (obj) reads during the call. -/
def _object_finalized (env : Env) (obj : Nat) (obj_name : String) (w : World) : World :=
  let w := G_LOCK w
  let (shown, w) := display_filter env DISPLAY_FLAG_CREATE w
  let w :=
    if shown then
      let w := g_mutex_lock w
      let w := g_fprintf (Out.finalized obj obj_name) w
      let w := print_trace env w
      let w := g_mutex_unlock w
      let w := touch Resource.added w
      if g_hash_table_lookup w.gobject_list_state.added obj = none then
        let w := touch Resource.removed w
        { w with gobject_list_state.removed :=
            g_hash_table_insert w.gobject_list_state.removed obj obj_name }
      else w
    else w
  let w := touch Resource.objects w
  let w := { w with gobject_list_state.objects :=
    g_hash_table_remove w.gobject_list_state.objects obj }
  let w := touch Resource.added w
  let w := { w with gobject_list_state.added :=
    g_hash_table_remove w.gobject_list_state.added obj }
  let w :=
    if env.with_origins_trace then
      let w := touch Resource.origins w
      { w with gobject_list_state.origins :=
          g_hash_table_remove w.gobject_list_state.origins obj_name }
    else w
  G_UNLOCK w

/-- The function `g_object_new`, after the real constructor has returned `obj`,
an object whose type name is `obj_name`. -/
def g_object_new (env : Env) (obj : Nat) (obj_name : String) (w : World) : World :=
  let w := get_func w
  let w := G_LOCK w
  let w := touch Resource.objects w
  let w :=
    if g_hash_table_lookup w.gobject_list_state.objects obj = none
        && object_filter env obj_name then
      let (shown, w) := display_filter env DISPLAY_FLAG_CREATE w
      let w :=
        if shown then
          let w := g_mutex_lock w
          let w := g_fprintf (Out.created obj obj_name) w
          let w := print_trace env w
          let w :=
            if env.have_libunwind && env.with_origins_trace then save_trace env obj_name true w
            else w
          g_mutex_unlock w
        else w
      let w := w.act (Act.weak_ref obj)
      let w := touch Resource.objects w
      let w := { w with gobject_list_state.objects :=
        g_hash_table_insert w.gobject_list_state.objects obj () }
      let w := touch Resource.added w
      { w with gobject_list_state.added :=
        g_hash_table_insert w.gobject_list_state.added obj () }
    else w
  G_UNLOCK w

/-- The function `g_object_ref`. `ref_count` is read before the real
`g_object_ref` runs, `new_ref_count` after it. -/
def g_object_ref (env : Env) (obj : Nat) (obj_name : String) (ref_count new_ref_count : Nat)
    (w : World) : World :=
  let w := get_func w
  if object_filter env obj_name then
    let (shown, w) := display_filter env DISPLAY_FLAG_REFS w
    if shown then
      let w := g_mutex_lock w
      let w := g_fprintf (Out.reffed obj obj_name ref_count new_ref_count) w
      let w := print_trace env w
      let w :=
        if env.have_libunwind && env.with_origins_trace then save_trace env obj_name true w
        else w
      g_mutex_unlock w
    else w
  else w

/-- The function `g_object_unref`, up to the call of the real `g_object_unref`.
`ref_count` is a guint, so `ref_count - 1` is taken modulo `2 ^ 32`. -/
def g_object_unref (env : Env) (obj : Nat) (obj_name : String) (ref_count : Nat)
    (w : World) : World :=
  let w := get_func w
  if object_filter env obj_name then
    let (shown, w) := display_filter env DISPLAY_FLAG_REFS w
    if shown then
      let w := g_mutex_lock w
      let w := g_fprintf (Out.unreffed obj obj_name ref_count ((ref_count + 2 ^ 32 - 1) % 2 ^ 32)) w
      let w := print_trace env w
      let w :=
        if env.have_libunwind && env.with_origins_trace then save_trace env obj_name false w
        else w
      g_mutex_unlock w
    else w
  else w

/-! ## Event sequences -/

/-- What can happen to the library: one of its entry points is called. -/
inductive Event where
  /-- The call `g_object_new` returning `obj`, of type name `obj_name`. -/
  | create (obj : Nat) (obj_name : String)
  /-- The call `g_object_ref` on `obj`. -/
  | ref (obj : Nat) (obj_name : String) (ref_count new_ref_count : Nat)
  /-- The call `g_object_unref` on `obj`. -/
  | unref (obj : Nat) (obj_name : String) (ref_count : Nat)
  /-- The callback `_object_finalized` for `obj`. -/
  | finalize (obj : Nat) (obj_name : String)
  /-- The signal SIGUSR1: live dump. -/
  | usr1 (heap : Heap)
  /-- The signal SIGUSR2: check-point dump. -/
  | usr2 (heap : Heap)
  /-- The exit handler, or one of the fatal signals: final dump. -/
  | still_alive (heap : Heap)

/-- The entry point an event calls. -/
def step (env : Env) (w : World) : Event → World
  | Event.create obj obj_name => g_object_new env obj obj_name w
  | Event.ref obj obj_name ref_count new_ref_count =>
    g_object_ref env obj obj_name ref_count new_ref_count w
  | Event.unref obj obj_name ref_count => g_object_unref env obj obj_name ref_count w
  | Event.finalize obj obj_name => _object_finalized env obj obj_name w
  | Event.usr1 heap => _sig_usr1_handler heap w
  | Event.usr2 heap => _sig_usr2_handler heap w
  | Event.still_alive heap => print_still_alive env heap w

/-- The world after a sequence of events, oldest first. -/
def run (env : Env) (events : List Event) (w : World) : World :=
  events.foldl (step env) w

/-! ## The locking discipline -/

/-- Scan of a log: `held` tells whether `gobject_list` is held; the result is
whether every access to protected state happens while it is held. -/
def lock_guarded : List Act → Bool → Bool
  | [], _ => true
  | Act.lock :: rest, _ => lock_guarded rest true
  | Act.unlock :: rest, _ => lock_guarded rest false
  | Act.access _ :: rest, held => held && lock_guarded rest held
  | _ :: rest, held => lock_guarded rest held

/-- An environment: default build without libunwind, nothing set. -/
def Env.plain : Env :=
  { have_libunwind := false, with_origins_trace := false, display := none, filter := none,
    stack := [], UNW_ENOMEM := 2 }

/-! ## Definitions used to state the properties -/

/-- A heap in which every address holds a live object of type "Foo". -/
def Heap.foo : Heap := fun _ => { type_name := "Foo", ref_count := 1 }

/-- The default build with GOBJECT_LIST_DISPLAY=refs: the create flag is off. -/
def Env.refs_only : Env := { Env.plain with display := some "refs" }

/-- The default build with GOBJECT_LIST_FILTER=Widget. -/
def Env.widget : Env := { Env.plain with filter := some "Widget" }

/-- A build with libunwind and origin tracing, run with GOBJECT_LIST_DISPLAY=all. -/
def Env.tracing : Env :=
  { have_libunwind := true, with_origins_trace := true, display := some "all",
    filter := none, stack := [{ result := 0, name := "main", off := 0 }], UNW_ENOMEM := 2 }

/-- The world after: object 1 ("Foo") is created, a check point is taken, the
object is finalized, and a new "Foo" is created at the same address 1. -/
def World.address_reused : World :=
  run Env.plain
    [Event.create 1 "Foo", Event.usr2 Heap.foo, Event.finalize 1 "Foo", Event.create 1 "Foo"]
    World.init

/-- The world after: object 1 ("Foo") is created, a check point is taken, and
object 2 ("Bar") is created. `objects` holds 1 and 2, `added` holds 2. -/
def World.two_objects : World :=
  run Env.plain [Event.create 1 "Foo", Event.usr2 Heap.foo, Event.create 2 "Bar"] World.init

/-- What C1 says of one call of the finalize handler: the identity leaves the
Live Registry and Added, Removed maps it to the type name if and only if it was
not in Added on entry, and the other entries of Removed are unchanged. -/
def finalize_contract_as_stated (env : Env) (obj : Nat) (obj_name : String) (w : World) : Prop :=
  obj ∉ (_object_finalized env obj obj_name w).gobject_list_state.objects.keys
  ∧ obj ∉ (_object_finalized env obj obj_name w).gobject_list_state.added.keys
  ∧ (g_hash_table_lookup (_object_finalized env obj obj_name w).gobject_list_state.removed obj
        = some obj_name ↔ obj ∉ w.gobject_list_state.added.keys)
  ∧ ∀ x, x ≠ obj →
      g_hash_table_lookup (_object_finalized env obj obj_name w).gobject_list_state.removed x
        = g_hash_table_lookup w.gobject_list_state.removed x

/-- An identity for which a create event occurred with no later finalize event
for the same identity. -/
def created_not_finalized (events : List Event) (obj : Nat) : Prop :=
  ∃ pre obj_name post, events = pre ++ Event.create obj obj_name :: post
    ∧ ∀ obj_name', Event.finalize obj obj_name' ∉ post

/-- A token that matches no name of `display_flags_map`. -/
def unknown_token (token : String) : Prop :=
  ∀ item ∈ display_flags_map, g_ascii_strcasecmp token item.1 ≠ 0

instance (token : String) : Decidable (unknown_token token) := by
  unfold unknown_token; infer_instance

/-- The flag of a recognised token: that of the first entry of the map whose
name equals the token up to ASCII case; `none` for an unknown token. -/
def token_flag (token : String) : Option Nat :=
  (display_flags_map.find? (fun item => decide (g_ascii_strcasecmp token item.1 = 0))).map
    Prod.snd

/-- The lines an object dump prints for a table: one per key that is non-null
and whose reference count is non-zero, in iteration order. -/
def dump_lines (heap : Heap) (hash : GHashTable Nat Unit) : List Out :=
  (hash.keys.filter (fun obj => decide (obj ≠ 0 ∧ (heap obj).ref_count ≠ 0))).map
    (fun obj => Out.object obj (heap obj).type_name (heap obj).ref_count)

/-- A table with the three keys 0, 1 and 2. -/
def GHashTable.sample : GHashTable Nat Unit :=
  g_hash_table_insert (g_hash_table_insert (g_hash_table_insert g_hash_table_new 0 ()) 1 ()) 2 ()

/-- A heap where only address 1 holds an object with a non-zero reference count. -/
def Heap.sample : Heap := fun obj =>
  if obj = 1 then { type_name := "Foo", ref_count := 3 } else { type_name := "Bar", ref_count := 0 }

/-- What C5 says of one call of the finalize handler: if the identity is not
in the Live Registry, the three tables are the same after the call as before. -/
def finalize_unregistered_as_stated (env : Env) (obj : Nat) (obj_name : String) (w : World) :
    Prop :=
  obj ∉ w.gobject_list_state.objects.keys →
    (_object_finalized env obj obj_name w).tracked = w.tracked

/-- Whether a printed line names the identity `obj`. -/
def Out.mentions (obj : Nat) : Out → Bool
  | Out.created o _ => decide (o = obj)
  | Out.finalized o _ => decide (o = obj)
  | Out.reffed o _ _ _ => decide (o = obj)
  | Out.unreffed o _ _ _ => decide (o = obj)
  | Out.object o _ _ => decide (o = obj)
  | Out.removed_object o _ => decide (o = obj)
  | _ => false

/-- Whether an action is a line naming `obj` or the registration of the
finalize callback for `obj`. -/
def Act.mentions (obj : Nat) : Act → Bool
  | Act.print o => o.mentions obj
  | Act.weak_ref o => decide (o = obj)
  | _ => false

/-- A log in which no line names `obj` and no callback is registered for it. -/
def quiet_log (obj : Nat) (log : List Act) : Prop := ∀ a ∈ log, Act.mentions obj a = false

/-- The identity `obj` is in none of the three tables of `w`, no line of the
log names it and no finalize callback has been registered for it. -/
def never_seen (obj : Nat) (w : World) : Prop :=
  obj ∉ w.gobject_list_state.objects.keys
  ∧ obj ∉ w.gobject_list_state.added.keys
  ∧ obj ∉ w.gobject_list_state.removed.keys
  ∧ quiet_log obj w.log

/-- The event is not a create, ref or unref of identity `obj` under the type
name `F`: whenever `obj` is created, reffed or unreffed, its type name is not `F`. -/
def Event.rejected_for (F : String) (obj : Nat) : Event → Bool
  | Event.create o obj_name => decide (o = obj → obj_name ≠ F)
  | Event.ref o obj_name _ _ => decide (o = obj → obj_name ≠ F)
  | Event.unref o obj_name _ => decide (o = obj → obj_name ≠ F)
  | _ => true

/-- The callback `_object_finalized` is registered by `g_object_new` when it
inserts an identity into `objects` (g_object_weak_ref) and GLib calls it when
that object is finalized: in the sequence, run from `w`, every finalize event is
for an identity that is in `objects` at that moment. -/
def finalize_only_registered (env : Env) : List Event → World → Bool
  | [], _ => true
  | e :: events, w =>
    (match e with
      | Event.finalize obj _ => decide (obj ∈ w.gobject_list_state.objects.keys)
      | _ => true)
    && finalize_only_registered env events (step env w e)

/-- A run with the filter "Widget": a "Gadget" is created at address 1, reffed
and unreffed, a "Widget" is created at 2 and finalized, with dumps in between. -/
def Event.sample : List Event :=
  [Event.create 1 "Gadget", Event.ref 1 "Gadget" 1 2, Event.create 2 "Widget",
   Event.usr1 Heap.foo, Event.unref 1 "Gadget" 2, Event.finalize 2 "Widget",
   Event.usr2 Heap.foo, Event.still_alive Heap.foo]

/-- The characters of a string, each folded to lower case by `g_ascii_tolower`. -/
def ascii_lower (s : String) : List Nat := s.data.map (fun c => g_ascii_tolower c.toNat)

/-- A string that can be a C string: it holds no NUL character. -/
def c_string (s : String) : Prop := ∀ c ∈ s.data, c.toNat ≠ 0

/-- What C8 says of inserting `token` between `pre` and `post`: if the token is
unknown, the mask resolved on the first call (from DISPLAY_FLAG_DEFAULT) is the
same with and without it. -/
def unknown_ignored_as_stated (pre post : List String) (token : String) : Prop :=
  unknown_token token →
    display_flags_parse (pre ++ token :: post) DISPLAY_FLAG_DEFAULT
      = display_flags_parse (pre ++ post) DISPLAY_FLAG_DEFAULT

/-! ## Basic facts: the hash table -/

section HashFacts

variable {K V : Type} [DecidableEq K]

theorem mem_keys_insert (h : GHashTable K V) (k : K) (v : V) (x : K) :
    x ∈ (g_hash_table_insert h k v).keys ↔ x = k ∨ x ∈ h.keys := by
  unfold g_hash_table_insert GHashTable.keys
  simp only [keys_insertEntry]
  split
  · rename_i hk
    constructor
    · intro hx; exact Or.inr hx
    · rintro (rfl | hx)
      · exact hk
      · exact hx
  · simp only [List.mem_append, List.mem_singleton]
    tauto

theorem mem_keys_remove (h : GHashTable K V) (k : K) (x : K) :
    x ∈ (g_hash_table_remove h k).keys ↔ x ≠ k ∧ x ∈ h.keys := by
  unfold g_hash_table_remove GHashTable.keys
  simp only [List.mem_map, List.mem_filter, decide_eq_true_eq]
  constructor
  · rintro ⟨e, ⟨he, hne⟩, rfl⟩
    exact ⟨hne, e, he, rfl⟩
  · rintro ⟨hne, e, he, rfl⟩
    exact ⟨e, ⟨he, hne⟩, rfl⟩

theorem lookup_eq_none_iff (h : GHashTable K V) (k : K) :
    g_hash_table_lookup h k = none ↔ k ∉ h.keys := by
  unfold g_hash_table_lookup GHashTable.keys
  simp only [Option.map_eq_none', List.find?_eq_none, decide_eq_true_eq, List.mem_map, not_exists,
    not_and]

theorem find_insertEntry_self (k : K) (v : V) (l : List (K × V)) :
    (insertEntry k v l).find? (fun e => decide (e.1 = k)) = some (k, v) := by
  induction l with
  | nil => simp [insertEntry]
  | cons e es ih =>
    by_cases h : e.1 = k
    · simp [insertEntry, h]
    · simp [insertEntry, h, List.find?_cons, ih]

theorem find_insertEntry_other (k : K) (v : V) (x : K) (hx : x ≠ k) (l : List (K × V)) :
    (insertEntry k v l).find? (fun e => decide (e.1 = x)) =
      l.find? (fun e => decide (e.1 = x)) := by
  induction l with
  | nil => simp [insertEntry, List.find?_cons, Ne.symm hx]
  | cons e es ih =>
    by_cases h : e.1 = k
    · have h1 : ¬ e.1 = x := fun c => hx (c.symm.trans h)
      simp [insertEntry, h, List.find?_cons, Ne.symm hx, h1]
    · simp only [insertEntry, h, if_false, List.find?_cons, ih]

theorem lookup_insert_self (h : GHashTable K V) (k : K) (v : V) :
    g_hash_table_lookup (g_hash_table_insert h k v) k = some v := by
  simp [g_hash_table_lookup, g_hash_table_insert, find_insertEntry_self]

theorem lookup_insert_other (h : GHashTable K V) (k : K) (v : V) (x : K) (hx : x ≠ k) :
    g_hash_table_lookup (g_hash_table_insert h k v) x = g_hash_table_lookup h x := by
  simp [g_hash_table_lookup, g_hash_table_insert, find_insertEntry_other k v x hx]

theorem insert_of_mem_unit (h : GHashTable K Unit) (k : K) (hk : k ∈ h.keys) :
    g_hash_table_insert h k () = h := by
  apply GHashTable.ext_entries
  show insertEntry k () h.entries = h.entries
  have hk' : k ∈ h.entries.map Prod.fst := hk
  generalize h.entries = l at hk'
  induction l with
  | nil => simp at hk'
  | cons e es ih =>
    by_cases he : e.1 = k
    · obtain ⟨a, u⟩ := e
      simp only at he
      subst he
      simp [insertEntry]
    · have : k ∈ es.map Prod.fst := by
        simp only [List.map_cons, List.mem_cons] at hk'
        rcases hk' with hk' | hk'
        · exact absurd hk'.symm he
        · exact hk'
      simp [insertEntry, he, ih this]

theorem count_keys_le_one (h : GHashTable K V) (k : K) : h.keys.count k ≤ 1 :=
  List.nodup_iff_count_le_one.mp h.nodup k

theorem count_keys_of_mem (h : GHashTable K V) (k : K) (hk : k ∈ h.keys) :
    h.keys.count k = 1 :=
  List.count_eq_one_of_mem h.nodup hk

end HashFacts

/-! ## Basic facts: what each function leaves alone -/

@[simp] theorem act_state (a : Act) (w : World) :
    (w.act a).gobject_list_state = w.gobject_list_state := rfl

@[simp] theorem act_display_flags (a : Act) (w : World) :
    (w.act a).display_flags = w.display_flags := rfl

@[simp] theorem act_parsed (a : Act) (w : World) : (w.act a).parsed = w.parsed := rfl

@[simp] theorem act_log (a : Act) (w : World) : (w.act a).log = w.log ++ [a] := rfl

@[simp] theorem act_tracked (a : Act) (w : World) : (w.act a).tracked = w.tracked := rfl

@[simp] theorem effective_flags_act (env : Env) (a : Act) (w : World) :
    effective_flags env (w.act a) = effective_flags env w := rfl

theorem display_filter_parse_state (env : Env) (w : World) :
    (display_filter_parse env w).gobject_list_state = w.gobject_list_state := by
  unfold display_filter_parse
  simp only [touch, g_fprintf]
  split
  · rfl
  · split <;> split <;> rfl

theorem display_filter_parse_flags (env : Env) (w : World) :
    (display_filter_parse env w).display_flags = effective_flags env w := by
  unfold display_filter_parse effective_flags
  simp only [touch, g_fprintf, act_parsed, act_display_flags]
  split
  · rfl
  · split <;> split <;> rfl

theorem display_filter_parse_parsed (env : Env) (w : World) :
    (display_filter_parse env w).parsed = true := by
  unfold display_filter_parse
  simp only [touch, g_fprintf, act_parsed]
  split
  · assumption
  · rfl

@[simp] theorem display_filter_fst (env : Env) (flags : Nat) (w : World) :
    (display_filter env flags w).1 = (effective_flags env w &&& flags != 0) := by
  simp [display_filter, display_filter_parse_flags]

@[simp] theorem display_filter_snd (env : Env) (flags : Nat) (w : World) :
    (display_filter env flags w).2 = display_filter_parse env w := rfl

@[simp] theorem display_filter_parse_tracked (env : Env) (w : World) :
    (display_filter_parse env w).tracked = w.tracked := by
  simp [World.tracked, display_filter_parse_state]

@[simp] theorem effective_flags_parse (env : Env) (w : World) :
    effective_flags env (display_filter_parse env w) = effective_flags env w := by
  conv_lhs => unfold effective_flags
  simp [display_filter_parse_parsed, display_filter_parse_flags]

theorem print_trace_frames_state (env : Env) (fs : List Frame) (n : Nat) (w : World) :
    (print_trace_frames env fs n w).gobject_list_state = w.gobject_list_state := by
  induction fs generalizing n w with
  | nil => rfl
  | cons f fs ih =>
    unfold print_trace_frames
    split
    · rfl
    · rw [ih]; rfl

@[simp] theorem print_trace_tracked (env : Env) (w : World) :
    (print_trace env w).tracked = w.tracked := by
  unfold print_trace
  split
  · simp only [display_filter_fst, display_filter_snd]
    split
    · simp
    · simp [World.tracked, print_trace_frames_state, display_filter_parse_state]
  · rfl

@[simp] theorem save_trace_tracked (env : Env) (key : String) (is_ref : Bool) (w : World) :
    (save_trace env key is_ref w).tracked = w.tracked := by
  unfold save_trace
  simp only [display_filter_fst, display_filter_snd]
  split
  · simp
  · simp [World.tracked, touch, display_filter_parse_state]

theorem tracked_fields {v w : World} (h : v.tracked = w.tracked) :
    v.gobject_list_state.objects = w.gobject_list_state.objects
      ∧ v.gobject_list_state.added = w.gobject_list_state.added
      ∧ v.gobject_list_state.removed = w.gobject_list_state.removed := by
  simpa only [World.tracked, Prod.mk.injEq] using h

@[simp] theorem print_trace_objects (env : Env) (w : World) :
    (print_trace env w).gobject_list_state.objects = w.gobject_list_state.objects :=
  (tracked_fields (print_trace_tracked env w)).1

@[simp] theorem print_trace_added (env : Env) (w : World) :
    (print_trace env w).gobject_list_state.added = w.gobject_list_state.added :=
  (tracked_fields (print_trace_tracked env w)).2.1

@[simp] theorem print_trace_removed (env : Env) (w : World) :
    (print_trace env w).gobject_list_state.removed = w.gobject_list_state.removed :=
  (tracked_fields (print_trace_tracked env w)).2.2

@[simp] theorem save_trace_objects (env : Env) (key : String) (is_ref : Bool) (w : World) :
    (save_trace env key is_ref w).gobject_list_state.objects = w.gobject_list_state.objects :=
  (tracked_fields (save_trace_tracked env key is_ref w)).1

@[simp] theorem save_trace_added (env : Env) (key : String) (is_ref : Bool) (w : World) :
    (save_trace env key is_ref w).gobject_list_state.added = w.gobject_list_state.added :=
  (tracked_fields (save_trace_tracked env key is_ref w)).2.1

@[simp] theorem save_trace_removed (env : Env) (key : String) (is_ref : Bool) (w : World) :
    (save_trace env key is_ref w).gobject_list_state.removed = w.gobject_list_state.removed :=
  (tracked_fields (save_trace_tracked env key is_ref w)).2.2

/-! ## Basic facts: the effect of each entry point on the three tables -/

theorem _object_finalized_tracked (env : Env) (obj : Nat) (obj_name : String) (w : World) :
    (_object_finalized env obj obj_name w).tracked =
      (g_hash_table_remove w.gobject_list_state.objects obj,
       g_hash_table_remove w.gobject_list_state.added obj,
       if (effective_flags env w &&& DISPLAY_FLAG_CREATE != 0) = true
            ∧ g_hash_table_lookup w.gobject_list_state.added obj = none then
         g_hash_table_insert w.gobject_list_state.removed obj obj_name
       else w.gobject_list_state.removed) := by
  unfold _object_finalized
  simp only [display_filter_fst, display_filter_snd, G_LOCK, G_UNLOCK, g_mutex_lock,
    g_mutex_unlock, g_fprintf, touch, effective_flags_act, act_state, print_trace_added,
    display_filter_parse_state]
  by_cases hs : (effective_flags env w &&& DISPLAY_FLAG_CREATE != 0) = true
  · by_cases ha : g_hash_table_lookup w.gobject_list_state.added obj = none
    · simp only [hs, ha, and_self, if_true]
      split <;> simp [World.tracked, display_filter_parse_state]
    · simp only [hs, ha, and_false, if_false, if_true]
      split <;> simp [World.tracked, display_filter_parse_state]
  · simp only [hs, false_and, if_false]
    split <;> simp [World.tracked, display_filter_parse_state]

theorem _object_finalized_objects (env : Env) (obj : Nat) (obj_name : String) (w : World) :
    (_object_finalized env obj obj_name w).gobject_list_state.objects =
      g_hash_table_remove w.gobject_list_state.objects obj :=
  congrArg Prod.fst (_object_finalized_tracked env obj obj_name w)

theorem _object_finalized_added (env : Env) (obj : Nat) (obj_name : String) (w : World) :
    (_object_finalized env obj obj_name w).gobject_list_state.added =
      g_hash_table_remove w.gobject_list_state.added obj :=
  congrArg (fun t => t.2.1) (_object_finalized_tracked env obj obj_name w)

theorem _object_finalized_removed (env : Env) (obj : Nat) (obj_name : String) (w : World) :
    (_object_finalized env obj obj_name w).gobject_list_state.removed =
      if (effective_flags env w &&& DISPLAY_FLAG_CREATE != 0) = true
            ∧ g_hash_table_lookup w.gobject_list_state.added obj = none then
         g_hash_table_insert w.gobject_list_state.removed obj obj_name
       else w.gobject_list_state.removed :=
  congrArg (fun t => t.2.2) (_object_finalized_tracked env obj obj_name w)

theorem g_object_new_tracked (env : Env) (obj : Nat) (obj_name : String) (w : World) :
    (g_object_new env obj obj_name w).tracked =
      if g_hash_table_lookup w.gobject_list_state.objects obj = none
          ∧ object_filter env obj_name = true then
        (g_hash_table_insert w.gobject_list_state.objects obj (),
         g_hash_table_insert w.gobject_list_state.added obj (),
         w.gobject_list_state.removed)
      else w.tracked := by
  unfold g_object_new
  simp only [display_filter_fst, display_filter_snd, get_func, G_LOCK, G_UNLOCK, g_mutex_lock,
    g_mutex_unlock, g_fprintf, touch, act_state, Bool.and_eq_true, decide_eq_true_eq, act_tracked]
  split
  · split
    · split <;> simp [World.tracked, display_filter_parse_state]
    · simp [World.tracked, display_filter_parse_state]
  · rfl

theorem _dump_object_list_loop_state (heap : Heap) (l : List Nat) (w : World) :
    (_dump_object_list_loop heap l w).gobject_list_state = w.gobject_list_state := by
  induction l generalizing w with
  | nil => rfl
  | cons obj rest ih =>
    unfold _dump_object_list_loop
    split
    · exact ih w
    · rw [ih]; rfl

@[simp] theorem _dump_object_list_state (heap : Heap) (hash : GHashTable Nat Unit) (w : World) :
    (_dump_object_list heap hash w).gobject_list_state = w.gobject_list_state := by
  simp [_dump_object_list, g_fprintf, _dump_object_list_loop_state]

@[simp] theorem _sig_usr2_removed_loop_state (l : List (Nat × String)) (w : World) :
    (_sig_usr2_removed_loop l w).gobject_list_state = w.gobject_list_state := by
  induction l generalizing w with
  | nil => rfl
  | cons e rest ih =>
    obtain ⟨obj, type⟩ := e
    unfold _sig_usr2_removed_loop
    rw [ih]; rfl

@[simp] theorem print_refs_loop_state (l : List (String × BtTrie)) (no : Nat) (w : World) :
    (print_refs_loop l no w).gobject_list_state = w.gobject_list_state := by
  induction l generalizing no w with
  | nil => rfl
  | cons e rest ih =>
    obtain ⟨k, t⟩ := e
    unfold print_refs_loop
    rw [ih]; rfl

theorem g_object_new_of_mem (env : Env) (obj : Nat) (obj_name : String) (w : World)
    (h : obj ∈ w.gobject_list_state.objects.keys) :
    g_object_new env obj obj_name w =
      { w with log := w.log ++ [Act.lock, Act.unlock, Act.lock, Act.access Resource.objects,
          Act.unlock] } := by
  have hl : ¬ g_hash_table_lookup w.gobject_list_state.objects obj = none := by
    rw [lookup_eq_none_iff]; exact fun c => c h
  unfold g_object_new
  simp [get_func, G_LOCK, G_UNLOCK, touch, hl, World.act]

theorem g_object_new_of_filtered (env : Env) (obj : Nat) (obj_name : String) (w : World)
    (h : object_filter env obj_name = false) :
    g_object_new env obj obj_name w =
      { w with log := w.log ++ [Act.lock, Act.unlock, Act.lock, Act.access Resource.objects,
          Act.unlock] } := by
  unfold g_object_new
  simp [get_func, G_LOCK, G_UNLOCK, touch, h, World.act]

theorem g_object_new_objects (env : Env) (obj : Nat) (obj_name : String) (w : World)
    (hf : object_filter env obj_name = true) :
    (g_object_new env obj obj_name w).gobject_list_state.objects =
      g_hash_table_insert w.gobject_list_state.objects obj () := by
  have h := congrArg Prod.fst (g_object_new_tracked env obj obj_name w)
  simp only [hf, and_true] at h
  by_cases hl : g_hash_table_lookup w.gobject_list_state.objects obj = none
  · rw [if_pos hl] at h; exact h
  · rw [if_neg hl] at h
    have hm : obj ∈ w.gobject_list_state.objects.keys := by
      by_contra c; exact hl ((lookup_eq_none_iff _ _).mpr c)
    rw [insert_of_mem_unit _ _ hm]; exact h

theorem _sig_usr1_handler_tracked (heap : Heap) (w : World) :
    (_sig_usr1_handler heap w).tracked = w.tracked := by
  simp [_sig_usr1_handler, World.tracked, G_LOCK, G_UNLOCK, g_fprintf, touch]

theorem _sig_usr2_handler_tracked (heap : Heap) (w : World) :
    (_sig_usr2_handler heap w).tracked =
      (w.gobject_list_state.objects, g_hash_table_new, g_hash_table_new) := by
  simp [_sig_usr2_handler, World.tracked, G_LOCK, G_UNLOCK, g_fprintf, touch,
    g_hash_table_remove_all, g_hash_table_new]

theorem print_still_alive_refs_state (env : Env) (w : World) :
    (print_still_alive_refs env w).gobject_list_state = w.gobject_list_state := by
  unfold print_still_alive_refs
  simp only [display_filter_fst, display_filter_snd, g_fprintf, touch]
  split
  · split <;> simp [display_filter_parse_state]
  · rfl

theorem print_still_alive_tracked (env : Env) (heap : Heap) (w : World) :
    (print_still_alive env heap w).tracked = w.tracked := by
  simp [print_still_alive, World.tracked, G_LOCK, G_UNLOCK, g_fprintf, touch,
    print_still_alive_refs_state]

theorem g_object_ref_tracked (env : Env) (obj : Nat) (obj_name : String) (rc rc' : Nat)
    (w : World) : (g_object_ref env obj obj_name rc rc' w).tracked = w.tracked := by
  unfold g_object_ref
  simp only [display_filter_fst, display_filter_snd, get_func, G_LOCK, G_UNLOCK, g_mutex_lock,
    g_mutex_unlock, g_fprintf, touch]
  split
  · split
    · split <;> simp [World.tracked, display_filter_parse_state]
    · simp
  · simp

theorem g_object_unref_tracked (env : Env) (obj : Nat) (obj_name : String) (rc : Nat)
    (w : World) : (g_object_unref env obj obj_name rc w).tracked = w.tracked := by
  unfold g_object_unref
  simp only [display_filter_fst, display_filter_snd, get_func, G_LOCK, G_UNLOCK, g_mutex_lock,
    g_mutex_unlock, g_fprintf, touch]
  split
  · split
    · split <;> simp [World.tracked, display_filter_parse_state]
    · simp
  · simp

/-! ## C1: the finalize handler -/

theorem remove_of_not_mem {K V : Type} [DecidableEq K] (h : GHashTable K V) (k : K)
    (hk : k ∉ h.keys) : g_hash_table_remove h k = h := by
  apply GHashTable.ext_entries
  show h.entries.filter (fun e => decide (e.1 ≠ k)) = h.entries
  rw [List.filter_eq_self]
  intro e he
  have : e.1 ≠ k := fun c => hk (c ▸ List.mem_map_of_mem Prod.fst he)
  simpa using this

/-- C1 as stated fails. In `World.address_reused` (default display flags, a
reachable world) identity 1 is in Added and Removed still holds 1 ↦ "Foo" from
the object that lived at that address before: after the handler Removed maps 1
to "Foo" although 1 was in Added. With GOBJECT_LIST_DISPLAY=refs the handler
inserts nothing into Removed although 1 was not in Added. -/
theorem C1_counterexample :
    ¬ finalize_contract_as_stated Env.plain 1 "Foo" World.address_reused
    ∧ ¬ finalize_contract_as_stated Env.refs_only 1 "Foo" World.init := by
  constructor
  · intro h
    exact absurd (h.2.2.1.mp (by decide)) (by decide)
  · intro h
    exact absurd (h.2.2.1.mpr (by decide)) (by decide)

/-- C1, amended: for every world, identity, type name and environment,
`_object_finalized` removes the identity from `objects` and from `added`, every
other identity staying in them (the tables afterwards are exactly the old ones
without the pair of the identity), and leaves the entries of `removed` for
other identities unchanged; and when the create display flag is on
(`display_filter (DISPLAY_FLAG_CREATE)` holds), then `removed` afterwards is the
old table with the identity mapped to the type name if the identity was not in
`added` on entry, and `removed` is unchanged if it was in `added`. -/
theorem C1_finalize_contract (env : Env) (obj : Nat) (obj_name : String) (w : World) :
    ((_object_finalized env obj obj_name w).gobject_list_state.objects
        = g_hash_table_remove w.gobject_list_state.objects obj
      ∧ (_object_finalized env obj obj_name w).gobject_list_state.objects.entries
        = w.gobject_list_state.objects.entries.filter (fun e => decide (e.1 ≠ obj))
      ∧ ∀ x, x ∈ (_object_finalized env obj obj_name w).gobject_list_state.objects.keys
          ↔ x ≠ obj ∧ x ∈ w.gobject_list_state.objects.keys)
    ∧ ((_object_finalized env obj obj_name w).gobject_list_state.added
        = g_hash_table_remove w.gobject_list_state.added obj
      ∧ (_object_finalized env obj obj_name w).gobject_list_state.added.entries
        = w.gobject_list_state.added.entries.filter (fun e => decide (e.1 ≠ obj))
      ∧ ∀ x, x ∈ (_object_finalized env obj obj_name w).gobject_list_state.added.keys
          ↔ x ≠ obj ∧ x ∈ w.gobject_list_state.added.keys)
    ∧ (∀ x, x ≠ obj →
        g_hash_table_lookup (_object_finalized env obj obj_name w).gobject_list_state.removed x
          = g_hash_table_lookup w.gobject_list_state.removed x)
    ∧ ((display_filter env DISPLAY_FLAG_CREATE w).1 = true →
        (obj ∉ w.gobject_list_state.added.keys →
          (_object_finalized env obj obj_name w).gobject_list_state.removed
            = g_hash_table_insert w.gobject_list_state.removed obj obj_name
          ∧ g_hash_table_lookup
              (_object_finalized env obj obj_name w).gobject_list_state.removed obj
            = some obj_name)
        ∧ (obj ∈ w.gobject_list_state.added.keys →
          (_object_finalized env obj obj_name w).gobject_list_state.removed
            = w.gobject_list_state.removed)) := by
  rw [_object_finalized_objects, _object_finalized_added, _object_finalized_removed]
  refine ⟨⟨rfl, rfl, fun x => mem_keys_remove _ _ x⟩, ⟨rfl, rfl, fun x => mem_keys_remove _ _ x⟩,
    ?_, ?_⟩
  · intro x hx
    split
    · exact lookup_insert_other _ _ _ _ hx
    · rfl
  · intro hs
    rw [display_filter_fst] at hs
    constructor
    · intro hn
      rw [if_pos ⟨hs, (lookup_eq_none_iff _ _).mpr hn⟩]
      exact ⟨rfl, lookup_insert_self _ _ _⟩
    · intro hm
      rw [if_neg]
      intro hc
      exact (lookup_eq_none_iff _ _).mp hc.2 hm

/-- C1, amended, at a concrete call: in `World.two_objects` (`objects` holds 1
and 2, `added` holds 2, default flags) finalizing identity 1 of type "Foo", which
is not in `added`, takes 1 out of `objects`, keeps 2 in `objects` and in `added`,
and records 1 ↦ "Foo" in `removed`. -/
theorem C1_finalize_contract_witness :
    (display_filter Env.plain DISPLAY_FLAG_CREATE World.two_objects).1 = true
    ∧ 1 ∈ World.two_objects.gobject_list_state.objects.keys
    ∧ 1 ∉ World.two_objects.gobject_list_state.added.keys
    ∧ 1 ∉ (_object_finalized Env.plain 1 "Foo" World.two_objects).gobject_list_state.objects.keys
    ∧ 2 ∈ (_object_finalized Env.plain 1 "Foo" World.two_objects).gobject_list_state.objects.keys
    ∧ 2 ∈ (_object_finalized Env.plain 1 "Foo" World.two_objects).gobject_list_state.added.keys
    ∧ g_hash_table_lookup
        (_object_finalized Env.plain 1 "Foo" World.two_objects).gobject_list_state.removed 1
        = some "Foo" :=
  ⟨by decide, by decide, by decide,
    fun h =>
      (((C1_finalize_contract Env.plain 1 "Foo" World.two_objects).1.2.2 1).mp h).1 rfl,
    ((C1_finalize_contract Env.plain 1 "Foo" World.two_objects).1.2.2 2).mpr
      ⟨by decide, by decide⟩,
    ((C1_finalize_contract Env.plain 1 "Foo" World.two_objects).2.1.2.2 2).mpr
      ⟨by decide, by decide⟩,
    (((C1_finalize_contract Env.plain 1 "Foo" World.two_objects).2.2.2 (by decide)).1
      (by decide)).2⟩

/-! ## C5: finalizing an identity that is not registered -/

/-- C5 as stated fails: in the initial world, with the default display flags,
identity 1 is not in the Live Registry, yet `_object_finalized` for it changes
the tables: Removed gains 1 ↦ "Foo". -/
theorem C5_counterexample :
    ¬ finalize_unregistered_as_stated Env.plain 1 "Foo" World.init := by
  intro h
  exact absurd (h (by decide)) (by decide)

/-- C5, amended: `_object_finalized` applied to an identity that is not in
`objects` leaves `objects` unchanged, leaves `added` unchanged when the identity
is not in `added` either, and leaves the entries of `removed` for other
identities unchanged; it is not a no-op on `removed`: with the create display
flag on and the identity not in `added`, `removed` afterwards maps the identity
to the given type name. -/
theorem C5_finalize_unregistered (env : Env) (obj : Nat) (obj_name : String) (w : World)
    (h : obj ∉ w.gobject_list_state.objects.keys) :
    (_object_finalized env obj obj_name w).gobject_list_state.objects
        = w.gobject_list_state.objects
    ∧ (obj ∉ w.gobject_list_state.added.keys →
        (_object_finalized env obj obj_name w).gobject_list_state.added
          = w.gobject_list_state.added)
    ∧ (∀ x, x ≠ obj →
        g_hash_table_lookup (_object_finalized env obj obj_name w).gobject_list_state.removed x
          = g_hash_table_lookup w.gobject_list_state.removed x)
    ∧ ((display_filter env DISPLAY_FLAG_CREATE w).1 = true →
        obj ∉ w.gobject_list_state.added.keys →
        g_hash_table_lookup (_object_finalized env obj obj_name w).gobject_list_state.removed obj
          = some obj_name) := by
  rw [_object_finalized_objects, _object_finalized_added, _object_finalized_removed]
  refine ⟨remove_of_not_mem _ _ h, fun ha => remove_of_not_mem _ _ ha, ?_, ?_⟩
  · intro x hx
    split
    · exact lookup_insert_other _ _ _ _ hx
    · rfl
  · intro hs hn
    rw [display_filter_fst] at hs
    rw [if_pos ⟨hs, (lookup_eq_none_iff _ _).mpr hn⟩]
    exact lookup_insert_self _ _ _

/-- C5, amended, at a concrete call: finalizing the unregistered identity 1 in
the initial world leaves `objects` and `added` empty and records 1 ↦ "Foo". -/
theorem C5_finalize_unregistered_witness :
    1 ∉ World.init.gobject_list_state.objects.keys
    ∧ (_object_finalized Env.plain 1 "Foo" World.init).gobject_list_state.objects
        = World.init.gobject_list_state.objects
    ∧ g_hash_table_lookup
        (_object_finalized Env.plain 1 "Foo" World.init).gobject_list_state.removed 1
        = some "Foo" :=
  ⟨by decide, (C5_finalize_unregistered Env.plain 1 "Foo" World.init (by decide)).1,
    (C5_finalize_unregistered Env.plain 1 "Foo" World.init (by decide)).2.2.2
      (by decide) (by decide)⟩

/-! ## C3: the create handler -/

/-- C3: for an identity whose type name passes the filter, `g_object_new`
inserts it into `objects` and `added` (keeping every other identity) and leaves
`removed` unchanged when it is not yet in `objects`; when it is already in
`objects` the three tables are unchanged; so a second create for the same
identity changes nothing but the log, and `objects` holds exactly one entry
for the identity. -/
theorem C3_create (env : Env) (obj : Nat) (obj_name : String) (w : World)
    (hf : object_filter env obj_name = true) :
    (obj ∉ w.gobject_list_state.objects.keys →
      (∀ x, x ∈ (g_object_new env obj obj_name w).gobject_list_state.objects.keys
          ↔ x = obj ∨ x ∈ w.gobject_list_state.objects.keys)
      ∧ (∀ x, x ∈ (g_object_new env obj obj_name w).gobject_list_state.added.keys
          ↔ x = obj ∨ x ∈ w.gobject_list_state.added.keys)
      ∧ (g_object_new env obj obj_name w).gobject_list_state.removed
          = w.gobject_list_state.removed)
    ∧ (obj ∈ w.gobject_list_state.objects.keys →
        (g_object_new env obj obj_name w).tracked = w.tracked)
    ∧ (∀ obj_name' : String,
        g_object_new env obj obj_name' (g_object_new env obj obj_name w) =
          { g_object_new env obj obj_name w with
            log := (g_object_new env obj obj_name w).log ++
              [Act.lock, Act.unlock, Act.lock, Act.access Resource.objects, Act.unlock] }
        ∧ (g_object_new env obj obj_name' (g_object_new env obj obj_name w)).tracked
            = (g_object_new env obj obj_name w).tracked)
    ∧ (g_object_new env obj obj_name w).gobject_list_state.objects.keys.count obj = 1 := by
  have hmem : obj ∈ (g_object_new env obj obj_name w).gobject_list_state.objects.keys := by
    rw [g_object_new_objects env obj obj_name w hf, mem_keys_insert]
    exact Or.inl rfl
  refine ⟨?_, ?_, ?_, count_keys_of_mem _ _ hmem⟩
  · intro hn
    have hl := (lookup_eq_none_iff _ _).mpr hn
    have h := g_object_new_tracked env obj obj_name w
    rw [if_pos ⟨hl, hf⟩] at h
    have ho := congrArg Prod.fst h
    have ha := congrArg (fun t => t.2.1) h
    have hr := congrArg (fun t => t.2.2) h
    refine ⟨?_, ?_, hr⟩
    · intro x
      exact (congrArg (fun t => x ∈ t.keys) ho).to_iff.trans (mem_keys_insert _ _ _ _)
    · intro x
      exact (congrArg (fun t => x ∈ t.keys) ha).to_iff.trans (mem_keys_insert _ _ _ _)
  · intro hm
    rw [g_object_new_of_mem env obj obj_name w hm]
    rfl
  · intro obj_name'
    refine ⟨g_object_new_of_mem env obj obj_name' _ hmem, ?_⟩
    rw [g_object_new_of_mem env obj obj_name' _ hmem]
    rfl

/-- C3 at a concrete call: with no filter set, creating identity 1 twice from
the initial world leaves exactly one entry for it in `objects`, and the second
create leaves the three tables as the first one made them. -/
theorem C3_create_witness :
    object_filter Env.plain "Foo" = true
    ∧ (g_object_new Env.plain 1 "Foo" World.init).gobject_list_state.objects.keys.count 1 = 1
    ∧ (g_object_new Env.plain 1 "Foo" (g_object_new Env.plain 1 "Foo" World.init)).tracked
        = (g_object_new Env.plain 1 "Foo" World.init).tracked :=
  ⟨by decide, (C3_create Env.plain 1 "Foo" World.init (by decide)).2.2.2,
    ((C3_create Env.plain 1 "Foo" World.init (by decide)).2.2.1 "Foo").2⟩

/-! ## C2 and C7: event sequences -/

theorem run_snoc (env : Env) (events : List Event) (e : Event) (w : World) :
    run env (events ++ [e]) w = step env (run env events w) e := by
  simp [run, List.foldl_append]

theorem step_tracked (env : Env) (w : World) (e : Event) :
    (step env w e).tracked =
      match e with
      | Event.create obj obj_name =>
        if g_hash_table_lookup w.gobject_list_state.objects obj = none
            ∧ object_filter env obj_name = true then
          (g_hash_table_insert w.gobject_list_state.objects obj (),
           g_hash_table_insert w.gobject_list_state.added obj (),
           w.gobject_list_state.removed)
        else w.tracked
      | Event.finalize obj obj_name =>
        (g_hash_table_remove w.gobject_list_state.objects obj,
         g_hash_table_remove w.gobject_list_state.added obj,
         if (effective_flags env w &&& DISPLAY_FLAG_CREATE != 0) = true
              ∧ g_hash_table_lookup w.gobject_list_state.added obj = none then
           g_hash_table_insert w.gobject_list_state.removed obj obj_name
         else w.gobject_list_state.removed)
      | Event.usr2 _ => (w.gobject_list_state.objects, g_hash_table_new, g_hash_table_new)
      | _ => w.tracked := by
  cases e with
  | create obj obj_name => exact g_object_new_tracked env obj obj_name w
  | ref obj obj_name rc rc' => exact g_object_ref_tracked env obj obj_name rc rc' w
  | unref obj obj_name rc => exact g_object_unref_tracked env obj obj_name rc w
  | finalize obj obj_name => exact _object_finalized_tracked env obj obj_name w
  | usr1 heap => exact _sig_usr1_handler_tracked heap w
  | usr2 heap => exact _sig_usr2_handler_tracked heap w
  | still_alive heap => exact print_still_alive_tracked env heap w

theorem step_mem_objects (env : Env) (w : World) (e : Event) (x : Nat) :
    x ∈ (step env w e).gobject_list_state.objects.keys ↔
      (∃ obj_name, e = Event.create x obj_name ∧ object_filter env obj_name = true)
      ∨ (x ∈ w.gobject_list_state.objects.keys ∧ ∀ obj_name, e ≠ Event.finalize x obj_name) := by
  have h := congrArg Prod.fst (step_tracked env w e)
  change (step env w e).gobject_list_state.objects = _ at h
  rw [h]
  cases e with
  | create obj obj_name =>
    simp only [Event.create.injEq, ne_eq, not_false_eq_true, implies_true, and_true,
      reduceCtorEq]
    split
    · rename_i hc
      show x ∈ (g_hash_table_insert w.gobject_list_state.objects obj ()).keys ↔ _
      rw [mem_keys_insert]
      constructor
      · rintro (rfl | hx)
        · exact Or.inl ⟨obj_name, ⟨rfl, rfl⟩, hc.2⟩
        · exact Or.inr hx
      · rintro (⟨n, ⟨rfl, rfl⟩, _⟩ | hx)
        · exact Or.inl rfl
        · exact Or.inr hx
    · rename_i hc
      show x ∈ w.gobject_list_state.objects.keys ↔ _
      constructor
      · intro hx; exact Or.inr hx
      · rintro (⟨n, ⟨rfl, rfl⟩, hf⟩ | hx)
        · by_contra hx
          exact hc ⟨(lookup_eq_none_iff _ _).mpr hx, hf⟩
        · exact hx
  | finalize obj obj_name =>
    show x ∈ (g_hash_table_remove w.gobject_list_state.objects obj).keys ↔ _
    rw [mem_keys_remove]
    simp only [reduceCtorEq, false_and, exists_false, false_or, ne_eq, Event.finalize.injEq,
      not_and]
    constructor
    · rintro ⟨hne, hx⟩
      exact ⟨hx, fun n c _ => hne c.symm⟩
    · rintro ⟨hx, hn⟩
      exact ⟨fun c => hn obj_name c.symm rfl, hx⟩
  | ref obj obj_name rc rc' => simp [World.tracked]
  | unref obj obj_name rc => simp [World.tracked]
  | usr1 heap => simp [World.tracked]
  | usr2 heap => simp
  | still_alive heap => simp [World.tracked]

theorem created_not_finalized_nil (x : Nat) : ¬ created_not_finalized [] x := by
  rintro ⟨pre, n, post, h, _⟩
  simp at h

theorem created_not_finalized_snoc (events : List Event) (e : Event) (x : Nat) :
    created_not_finalized (events ++ [e]) x ↔
      (∃ obj_name, e = Event.create x obj_name)
      ∨ (created_not_finalized events x ∧ ∀ obj_name, e ≠ Event.finalize x obj_name) := by
  constructor
  · rintro ⟨pre, n, post, h, hp⟩
    rcases List.eq_nil_or_concat post with rfl | ⟨post', e', rfl⟩
    · have h' : events ++ [e] = pre ++ [Event.create x n] := h
      have := List.append_inj' h' rfl
      exact Or.inl ⟨n, by simpa using this.2⟩
    · have h' : events ++ [e] = (pre ++ Event.create x n :: post') ++ [e'] := by
        rw [h]; simp
      have := List.append_inj' h' rfl
      have he : e = e' := by simpa using this.2
      refine Or.inr ⟨⟨pre, n, post', this.1, fun n' hn' => hp n' ?_⟩, fun n' hn' => hp n' ?_⟩
      · simp [hn']
      · simp [← he, hn']
  · rintro (⟨n, rfl⟩ | ⟨⟨pre, n, post, rfl, hp⟩, hne⟩)
    · exact ⟨events, n, [], rfl, by simp⟩
    · refine ⟨pre, n, post ++ [e], by simp, ?_⟩
      intro n' hn'
      rw [List.mem_append] at hn'
      rcases hn' with hn' | hn'
      · exact hp n' hn'
      · exact hne n' (List.mem_singleton.mp hn').symm

/-- C2: for every sequence of events run from the initial world in which every
create event is for a type name that passes the filter, an identity is in
`objects` afterwards if and only if the sequence holds a create event for it
with no later finalize event for it. -/
theorem C2_registry_consistency (env : Env) (events : List Event)
    (hf : ∀ obj obj_name, Event.create obj obj_name ∈ events →
      object_filter env obj_name = true) (x : Nat) :
    x ∈ (run env events World.init).gobject_list_state.objects.keys ↔
      created_not_finalized events x := by
  induction events using List.reverseRecOn with
  | nil =>
    constructor
    · intro h; exact absurd h (by simp [run, World.init, g_hash_table_new, GHashTable.keys])
    · intro h; exact absurd h (created_not_finalized_nil x)
  | append_singleton events e ih =>
    have ih' := ih (fun obj n hm => hf obj n (by simp [hm]))
    rw [run_snoc, step_mem_objects, created_not_finalized_snoc, ih']
    constructor
    · rintro (⟨n, he, _⟩ | h)
      · exact Or.inl ⟨n, he⟩
      · exact Or.inr h
    · rintro (⟨n, he⟩ | h)
      · exact Or.inl ⟨n, he, hf x n (by simp [he])⟩
      · exact Or.inr h

/-- C2 on a concrete sequence: identities 1 and 2 are created, a check point is
taken and 1 is finalized; 2 is in `objects` afterwards because its create event
is followed by no finalize event for 2. -/
theorem C2_registry_consistency_witness :
    (∀ obj obj_name,
      Event.create obj obj_name ∈
        [Event.create 1 "Foo", Event.create 2 "Bar", Event.usr2 Heap.foo, Event.finalize 1 "Foo"] →
      object_filter Env.plain obj_name = true)
    ∧ (2 ∈ (run Env.plain
          [Event.create 1 "Foo", Event.create 2 "Bar", Event.usr2 Heap.foo, Event.finalize 1 "Foo"]
          World.init).gobject_list_state.objects.keys ↔
        created_not_finalized
          [Event.create 1 "Foo", Event.create 2 "Bar", Event.usr2 Heap.foo, Event.finalize 1 "Foo"]
          2) :=
  ⟨fun _ _ _ => rfl,
    C2_registry_consistency Env.plain
      [Event.create 1 "Foo", Event.create 2 "Bar", Event.usr2 Heap.foo, Event.finalize 1 "Foo"]
      (fun _ _ _ => rfl) 2⟩

/-- C7: in every world reached from the initial world by a sequence of events,
every identity in `added` is also in `objects`. -/
theorem C7_added_subset_objects (env : Env) (events : List Event) (x : Nat) :
    x ∈ (run env events World.init).gobject_list_state.added.keys →
      x ∈ (run env events World.init).gobject_list_state.objects.keys := by
  induction events using List.reverseRecOn generalizing x with
  | nil => intro h; exact absurd h (by simp [run, World.init, g_hash_table_new, GHashTable.keys])
  | append_singleton events e ih =>
    rw [run_snoc]
    generalize run env events World.init = w at ih
    have h := step_tracked env w e
    have ho := congrArg Prod.fst h
    have ha := congrArg (fun t => t.2.1) h
    change (step env w e).gobject_list_state.objects = _ at ho
    change (step env w e).gobject_list_state.added = _ at ha
    rw [ho, ha]
    cases e with
    | create obj obj_name =>
      simp only
      split
      · simp only [mem_keys_insert]
        rintro (rfl | hx)
        · exact Or.inl rfl
        · exact Or.inr (ih x hx)
      · exact ih x
    | finalize obj obj_name =>
      simp only [mem_keys_remove]
      rintro ⟨hne, hx⟩
      exact ⟨hne, ih x hx⟩
    | usr2 heap => simp [g_hash_table_new, GHashTable.keys]
    | ref obj obj_name rc rc' => exact ih x
    | unref obj obj_name rc => exact ih x
    | usr1 heap => exact ih x
    | still_alive heap => exact ih x

/-- C7 on a concrete sequence: after creating 1 and 2 and finalizing 1, the
identity 2 is in `added`, and therefore in `objects`. -/
theorem C7_added_subset_objects_witness :
    2 ∈ (run Env.plain [Event.create 1 "Foo", Event.create 2 "Bar", Event.finalize 1 "Foo"]
        World.init).gobject_list_state.added.keys
    ∧ 2 ∈ (run Env.plain [Event.create 1 "Foo", Event.create 2 "Bar", Event.finalize 1 "Foo"]
        World.init).gobject_list_state.objects.keys :=
  ⟨by decide,
    C7_added_subset_objects Env.plain
      [Event.create 1 "Foo", Event.create 2 "Bar", Event.finalize 1 "Foo"] 2 (by decide)⟩

/-! ## Basic facts: what gets logged and printed -/

theorem printed_eq (w : World) : w.printed = w.log.filterMap Act.line := rfl

theorem _dump_object_list_loop_log (heap : Heap) (l : List Nat) (w : World) :
    (_dump_object_list_loop heap l w).log =
      w.log ++
        (l.filter (fun obj => decide (obj ≠ 0 ∧ (heap obj).ref_count ≠ 0))).map
          (fun obj => Act.print (Out.object obj (heap obj).type_name (heap obj).ref_count)) := by
  induction l generalizing w with
  | nil => simp [_dump_object_list_loop]
  | cons obj rest ih =>
    unfold _dump_object_list_loop
    by_cases h : obj = 0 ∨ (heap obj).ref_count = 0
    · have h' : ¬ (obj ≠ 0 ∧ (heap obj).ref_count ≠ 0) := by tauto
      rw [if_pos h, ih, List.filter_cons_of_neg (by simpa using h')]
    · have h' : obj ≠ 0 ∧ (heap obj).ref_count ≠ 0 := by tauto
      rw [if_neg h, ih, List.filter_cons_of_pos (by simpa using h')]
      simp [g_fprintf]

theorem _dump_object_list_log (heap : Heap) (hash : GHashTable Nat Unit) (w : World) :
    (_dump_object_list heap hash w).log =
      w.log ++ (dump_lines heap hash).map Act.print
        ++ [Act.print (Out.count (g_hash_table_size hash))] := by
  simp [_dump_object_list, g_fprintf, _dump_object_list_loop_log, dump_lines]

theorem _sig_usr2_removed_loop_log (l : List (Nat × String)) (w : World) :
    (_sig_usr2_removed_loop l w).log =
      w.log ++ l.map (fun e => Act.print (Out.removed_object e.1 e.2)) := by
  induction l generalizing w with
  | nil => simp [_sig_usr2_removed_loop]
  | cons e rest ih =>
    obtain ⟨obj, type⟩ := e
    unfold _sig_usr2_removed_loop
    rw [ih]
    simp [g_fprintf]

theorem filterMap_line_print (l : List Out) : (l.map Act.print).filterMap Act.line = l := by
  induction l with
  | nil => rfl
  | cons o l ih => simp [Act.line, ih]

theorem _dump_object_list_printed (heap : Heap) (hash : GHashTable Nat Unit) (w : World) :
    (_dump_object_list heap hash w).printed =
      w.printed ++ dump_lines heap hash ++ [Out.count (g_hash_table_size hash)] := by
  simp only [printed_eq, _dump_object_list_log, List.filterMap_append, filterMap_line_print]
  simp [Act.line]

theorem _sig_usr2_handler_log (heap : Heap) (w : World) :
    (_sig_usr2_handler heap w).log =
      w.log ++ [Act.lock, Act.print (Out.text "Added Objects:"), Act.access Resource.added]
        ++ (dump_lines heap w.gobject_list_state.added).map Act.print
        ++ [Act.print (Out.count (g_hash_table_size w.gobject_list_state.added)),
            Act.print (Out.text "\nRemoved Objects:"), Act.access Resource.removed]
        ++ (w.gobject_list_state.removed.entries.map
              (fun e => Out.removed_object e.1 e.2)).map Act.print
        ++ [Act.access Resource.removed,
            Act.print (Out.count (g_hash_table_size w.gobject_list_state.removed)),
            Act.access Resource.added, Act.access Resource.removed,
            Act.print (Out.text "\nSaved new check point"), Act.unlock] := by
  simp [_sig_usr2_handler, G_LOCK, G_UNLOCK, g_fprintf, touch, _dump_object_list_log,
    _sig_usr2_removed_loop_log]

theorem _sig_usr2_handler_printed (heap : Heap) (w : World) :
    (_sig_usr2_handler heap w).printed =
      w.printed ++ [Out.text "Added Objects:"] ++ dump_lines heap w.gobject_list_state.added
        ++ [Out.count (g_hash_table_size w.gobject_list_state.added),
            Out.text "\nRemoved Objects:"]
        ++ w.gobject_list_state.removed.entries.map (fun e => Out.removed_object e.1 e.2)
        ++ [Out.count (g_hash_table_size w.gobject_list_state.removed),
            Out.text "\nSaved new check point"] := by
  simp only [printed_eq, _sig_usr2_handler_log, List.filterMap_append, filterMap_line_print]
  simp [Act.line]

theorem dump_lines_of_live (heap : Heap) (hash : GHashTable Nat Unit)
    (h : ∀ obj ∈ hash.keys, obj ≠ 0 ∧ (heap obj).ref_count ≠ 0) :
    dump_lines heap hash =
      hash.keys.map (fun obj => Out.object obj (heap obj).type_name (heap obj).ref_count) := by
  unfold dump_lines
  rw [List.filter_eq_self.mpr]
  intro obj ho
  simpa using h obj ho

/-! ## C6: the check-point dump -/

/-- C6: `_sig_usr2_handler` prints the heading, the object dump of `added` as
it was on entry (one line per identity when the added objects are live, that is
non-null with a non-zero reference count) with the size of `added`, then one
line (identity, type name) for every entry of `removed` as it was on entry with
the size of `removed`; afterwards `added` and `removed` are empty and `objects`
is unchanged. Run a second time with no event in between, it again leaves
`added` and `removed` empty and `objects` unchanged, and reports both as empty. -/
theorem C6_checkpoint_dump (heap heap' : Heap) (w : World) :
    (_sig_usr2_handler heap w).printed =
      w.printed ++ [Out.text "Added Objects:"] ++ dump_lines heap w.gobject_list_state.added
        ++ [Out.count (g_hash_table_size w.gobject_list_state.added),
            Out.text "\nRemoved Objects:"]
        ++ w.gobject_list_state.removed.entries.map (fun e => Out.removed_object e.1 e.2)
        ++ [Out.count (g_hash_table_size w.gobject_list_state.removed),
            Out.text "\nSaved new check point"]
    ∧ ((∀ obj ∈ w.gobject_list_state.added.keys, obj ≠ 0 ∧ (heap obj).ref_count ≠ 0) →
        dump_lines heap w.gobject_list_state.added =
          w.gobject_list_state.added.keys.map
            (fun obj => Out.object obj (heap obj).type_name (heap obj).ref_count))
    ∧ (_sig_usr2_handler heap w).tracked =
        (w.gobject_list_state.objects, g_hash_table_new, g_hash_table_new)
    ∧ (_sig_usr2_handler heap' (_sig_usr2_handler heap w)).tracked =
        (w.gobject_list_state.objects, g_hash_table_new, g_hash_table_new)
    ∧ (_sig_usr2_handler heap' (_sig_usr2_handler heap w)).printed =
        (_sig_usr2_handler heap w).printed ++
          [Out.text "Added Objects:", Out.count 0, Out.text "\nRemoved Objects:", Out.count 0,
           Out.text "\nSaved new check point"] := by
  have ht := _sig_usr2_handler_tracked heap w
  have ho := congrArg Prod.fst ht
  have ha := congrArg (fun t => t.2.1) ht
  have hr := congrArg (fun t => t.2.2) ht
  change (_sig_usr2_handler heap w).gobject_list_state.objects = _ at ho
  change (_sig_usr2_handler heap w).gobject_list_state.added = _ at ha
  change (_sig_usr2_handler heap w).gobject_list_state.removed = _ at hr
  refine ⟨_sig_usr2_handler_printed heap w, dump_lines_of_live heap _, ht, ?_, ?_⟩
  · rw [_sig_usr2_handler_tracked, ho]
  · rw [_sig_usr2_handler_printed heap', ha, hr]
    simp [dump_lines, g_hash_table_new, GHashTable.keys, g_hash_table_size]

/-- C6 on a concrete world: in `World.address_reused` the table `added` holds
the live identity 1, so the check-point dump lists it. -/
theorem C6_checkpoint_dump_witness :
    (∀ obj ∈ World.address_reused.gobject_list_state.added.keys,
      obj ≠ 0 ∧ (Heap.foo obj).ref_count ≠ 0)
    ∧ dump_lines Heap.foo World.address_reused.gobject_list_state.added =
        World.address_reused.gobject_list_state.added.keys.map
          (fun obj => Out.object obj (Heap.foo obj).type_name (Heap.foo obj).ref_count) :=
  ⟨by decide, (C6_checkpoint_dump Heap.foo Heap.foo World.address_reused).2.1 (by decide)⟩

/-! ## C10: the object dump -/

theorem _sig_usr1_handler_log (heap : Heap) (w : World) :
    (_sig_usr1_handler heap w).log =
      w.log ++ [Act.print (Out.text "Living Objects:"), Act.lock, Act.access Resource.objects]
        ++ (dump_lines heap w.gobject_list_state.objects).map Act.print
        ++ [Act.print (Out.count (g_hash_table_size w.gobject_list_state.objects)),
            Act.unlock] := by
  simp [_sig_usr1_handler, G_LOCK, G_UNLOCK, g_fprintf, touch, _dump_object_list_log]

theorem display_filter_parse_log (env : Env) (w : World) :
    ∃ acts, (display_filter_parse env w).log = w.log ++ acts := by
  unfold display_filter_parse
  simp only [touch, g_fprintf]
  split
  · exact ⟨_, rfl⟩
  · split <;> split <;> exact ⟨_, by simp only [act_log, List.append_assoc]; rfl⟩

theorem print_refs_loop_log (l : List (String × BtTrie)) (no : Nat) (w : World) :
    ∃ acts, (print_refs_loop l no w).log = w.log ++ acts := by
  induction l generalizing no w with
  | nil => exact ⟨[], by simp [print_refs_loop]⟩
  | cons e rest ih =>
    obtain ⟨k, t⟩ := e
    unfold print_refs_loop
    obtain ⟨acts, h⟩ := ih (no + 1) (g_fprintf (Out.refs (no + 1) t) w)
    exact ⟨Act.print (Out.refs (no + 1) t) :: acts, by rw [h]; simp [g_fprintf]⟩

theorem print_still_alive_refs_log (env : Env) (w : World) :
    ∃ acts, (print_still_alive_refs env w).log = w.log ++ acts := by
  unfold print_still_alive_refs
  simp only [display_filter_fst, display_filter_snd, g_fprintf, touch]
  obtain ⟨a1, h1⟩ := display_filter_parse_log env w
  split
  · split
    · obtain ⟨a2, h2⟩ := print_refs_loop_log
        (((display_filter_parse env w).act (Act.print (Out.text "\nReferences:"))).act
          (Act.access Resource.origins)).gobject_list_state.origins.entries 0
        (((display_filter_parse env w).act (Act.print (Out.text "\nReferences:"))).act
          (Act.access Resource.origins))
      refine ⟨a1 ++ [Act.print (Out.text "\nReferences:"), Act.access Resource.origins] ++ a2,
        ?_⟩
      rw [h2]
      simp [h1]
    · exact ⟨a1, h1⟩
  · exact ⟨[], by simp⟩

theorem print_still_alive_log (env : Env) (heap : Heap) (w : World) :
    ∃ acts, (print_still_alive env heap w).log =
      w.log ++ [Act.print (Out.text "\nStill Alive:"), Act.lock, Act.access Resource.objects]
        ++ (dump_lines heap w.gobject_list_state.objects).map Act.print
        ++ [Act.print (Out.count (g_hash_table_size w.gobject_list_state.objects))]
        ++ acts := by
  unfold print_still_alive
  obtain ⟨a, h⟩ := print_still_alive_refs_log env
    (_dump_object_list heap
      (touch Resource.objects
        (G_LOCK (g_fprintf (Out.text "\nStill Alive:") w))).gobject_list_state.objects
      (touch Resource.objects (G_LOCK (g_fprintf (Out.text "\nStill Alive:") w))))
  refine ⟨a ++ [Act.unlock], ?_⟩
  simp only [G_UNLOCK, act_log, h, _dump_object_list_log]
  simp [G_LOCK, g_fprintf, touch]

theorem dump_lines_length_le (heap : Heap) (hash : GHashTable Nat Unit) :
    (dump_lines heap hash).length ≤ g_hash_table_size hash := by
  unfold dump_lines g_hash_table_size GHashTable.keys
  rw [List.length_map]
  exact (List.length_filter_le _ _).trans (by simp)

/-- C10: `_dump_object_list` prints one line (identity, type name, reference
count) for exactly the keys of the table that are non-null and whose reference
count is non-zero, in iteration order, and then a count line carrying the size
of the whole table; the live dump and the final dump print exactly that for
`objects` after their heading. The count is never below the number of lines
printed and can exceed it. -/
theorem C10_dump_object_list (env : Env) (heap : Heap) (hash : GHashTable Nat Unit)
    (w : World) :
    (_dump_object_list heap hash w).printed =
      w.printed ++
        (hash.keys.filter (fun obj => decide (obj ≠ 0 ∧ (heap obj).ref_count ≠ 0))).map
          (fun obj => Out.object obj (heap obj).type_name (heap obj).ref_count)
        ++ [Out.count hash.keys.length]
    ∧ (_sig_usr1_handler heap w).printed =
        w.printed ++ [Out.text "Living Objects:"]
          ++ (w.gobject_list_state.objects.keys.filter
                (fun obj => decide (obj ≠ 0 ∧ (heap obj).ref_count ≠ 0))).map
              (fun obj => Out.object obj (heap obj).type_name (heap obj).ref_count)
          ++ [Out.count w.gobject_list_state.objects.keys.length]
    ∧ (∃ rest, (print_still_alive env heap w).printed =
        w.printed ++ [Out.text "\nStill Alive:"]
          ++ (w.gobject_list_state.objects.keys.filter
                (fun obj => decide (obj ≠ 0 ∧ (heap obj).ref_count ≠ 0))).map
              (fun obj => Out.object obj (heap obj).type_name (heap obj).ref_count)
          ++ [Out.count w.gobject_list_state.objects.keys.length] ++ rest)
    ∧ ((hash.keys.filter
          (fun obj => decide (obj ≠ 0 ∧ (heap obj).ref_count ≠ 0))).length ≤ hash.keys.length)
    ∧ (∃ (heap' : Heap) (hash' : GHashTable Nat Unit),
        (hash'.keys.filter
          (fun obj => decide (obj ≠ 0 ∧ (heap' obj).ref_count ≠ 0))).length
          < hash'.keys.length) := by
  have hsize : ∀ t : GHashTable Nat Unit, g_hash_table_size t = t.keys.length := by
    intro t; simp [g_hash_table_size, GHashTable.keys]
  refine ⟨?_, ?_, ?_, List.length_filter_le _ _, ⟨Heap.sample, GHashTable.sample, by decide⟩⟩
  · rw [_dump_object_list_printed, hsize]; rfl
  · simp only [printed_eq, _sig_usr1_handler_log, List.filterMap_append, filterMap_line_print,
      hsize]
    simp [Act.line, dump_lines]
  · obtain ⟨acts, h⟩ := print_still_alive_log env heap w
    refine ⟨acts.filterMap Act.line, ?_⟩
    simp only [printed_eq, h, List.filterMap_append, filterMap_line_print, hsize]
    simp [Act.line, dump_lines]

/-! ## C4: the type filter -/

theorem object_filter_iff (env : Env) (obj_name : String) :
    object_filter env obj_name = true ↔ env.filter = none ∨ env.filter = some obj_name := by
  unfold object_filter
  cases env.filter with
  | none => simp
  | some f => simp

theorem g_object_ref_of_filtered (env : Env) (obj : Nat) (obj_name : String) (rc rc' : Nat)
    (w : World) (h : object_filter env obj_name = false) :
    g_object_ref env obj obj_name rc rc' w =
      { w with log := w.log ++ [Act.lock, Act.unlock] } := by
  unfold g_object_ref
  simp [get_func, G_LOCK, G_UNLOCK, h, World.act]

theorem g_object_unref_of_filtered (env : Env) (obj : Nat) (obj_name : String) (rc : Nat)
    (w : World) (h : object_filter env obj_name = false) :
    g_object_unref env obj obj_name rc w =
      { w with log := w.log ++ [Act.lock, Act.unlock] } := by
  unfold g_object_unref
  simp [get_func, G_LOCK, G_UNLOCK, h, World.act]

@[simp] theorem quiet_log_nil (obj : Nat) : quiet_log obj [] ↔ True := by
  simp [quiet_log]

@[simp] theorem quiet_log_cons (obj : Nat) (a : Act) (l : List Act) :
    quiet_log obj (a :: l) ↔ Act.mentions obj a = false ∧ quiet_log obj l := by
  simp [quiet_log]

@[simp] theorem quiet_log_append (obj : Nat) (l l' : List Act) :
    quiet_log obj (l ++ l') ↔ quiet_log obj l ∧ quiet_log obj l' := by
  unfold quiet_log
  simp only [List.mem_append]
  constructor
  · intro h; exact ⟨fun a ha => h a (Or.inl ha), fun a ha => h a (Or.inr ha)⟩
  · rintro ⟨h1, h2⟩ a (ha | ha)
    · exact h1 a ha
    · exact h2 a ha

theorem quiet_log_singleton (obj : Nat) (a : Act) :
    quiet_log obj [a] ↔ Act.mentions obj a = false := by
  simp [quiet_log]

@[simp] theorem quiet_act (obj : Nat) (a : Act) (w : World) :
    quiet_log obj (w.act a).log ↔ quiet_log obj w.log ∧ Act.mentions obj a = false := by
  rw [act_log, quiet_log_append, quiet_log_singleton]

@[simp] theorem quiet_display_filter_parse (obj : Nat) (env : Env) (w : World) :
    quiet_log obj (display_filter_parse env w).log ↔ quiet_log obj w.log := by
  unfold display_filter_parse
  simp only [touch, g_fprintf]
  split
  · simp [Act.mentions]
  · split <;> split <;> simp [Act.mentions, Out.mentions]

@[simp] theorem quiet_print_trace_frames (obj : Nat) (env : Env) (fs : List Frame) (n : Nat)
    (w : World) :
    quiet_log obj (print_trace_frames env fs n w).log ↔ quiet_log obj w.log := by
  induction fs generalizing n w with
  | nil => rfl
  | cons f fs ih =>
    unfold print_trace_frames
    split
    · simp [g_fprintf, Act.mentions, Out.mentions]
    · rw [ih]; simp [g_fprintf, Act.mentions, Out.mentions]

@[simp] theorem quiet_print_trace (obj : Nat) (env : Env) (w : World) :
    quiet_log obj (print_trace env w).log ↔ quiet_log obj w.log := by
  unfold print_trace
  simp only [display_filter_fst, display_filter_snd]
  split
  · split <;> simp
  · rfl

@[simp] theorem quiet_save_trace (obj : Nat) (env : Env) (key : String) (is_ref : Bool)
    (w : World) :
    quiet_log obj (save_trace env key is_ref w).log ↔ quiet_log obj w.log := by
  unfold save_trace
  simp only [display_filter_fst, display_filter_snd, touch]
  split
  · simp
  · simp [Act.mentions]

@[simp] theorem quiet_print_refs_loop (obj : Nat) (l : List (String × BtTrie)) (no : Nat)
    (w : World) :
    quiet_log obj (print_refs_loop l no w).log ↔ quiet_log obj w.log := by
  induction l generalizing no w with
  | nil => rfl
  | cons e rest ih =>
    obtain ⟨k, t⟩ := e
    unfold print_refs_loop
    rw [ih]; simp [g_fprintf, Act.mentions, Out.mentions]

@[simp] theorem quiet_print_still_alive_refs (obj : Nat) (env : Env) (w : World) :
    quiet_log obj (print_still_alive_refs env w).log ↔ quiet_log obj w.log := by
  unfold print_still_alive_refs
  simp only [display_filter_fst, display_filter_snd, touch, g_fprintf]
  split
  · split <;> simp [Act.mentions, Out.mentions]
  · rfl

theorem quiet_dump_object_list (obj : Nat) (heap : Heap) (hash : GHashTable Nat Unit)
    (w : World) (h : obj ∉ hash.keys) :
    quiet_log obj (_dump_object_list heap hash w).log ↔ quiet_log obj w.log := by
  rw [_dump_object_list_log, quiet_log_append, quiet_log_append, quiet_log_singleton]
  have h1 : quiet_log obj ((dump_lines heap hash).map Act.print) := by
    intro a ha
    simp only [dump_lines, List.map_map, List.mem_map, List.mem_filter, Function.comp] at ha
    obtain ⟨o, ⟨ho, _⟩, rfl⟩ := ha
    have : o ≠ obj := fun c => h (c ▸ ho)
    simp [Act.mentions, Out.mentions, this]
  simp [h1, Act.mentions, Out.mentions]

theorem quiet_sig_usr2_removed_loop (obj : Nat) (l : List (Nat × String)) (w : World)
    (h : obj ∉ l.map Prod.fst) :
    quiet_log obj (_sig_usr2_removed_loop l w).log ↔ quiet_log obj w.log := by
  rw [_sig_usr2_removed_loop_log, quiet_log_append]
  have h1 : quiet_log obj (l.map (fun e => Act.print (Out.removed_object e.1 e.2))) := by
    intro a ha
    simp only [List.mem_map] at ha
    obtain ⟨e, he, rfl⟩ := ha
    have : e.1 ≠ obj := fun c => h (c ▸ List.mem_map_of_mem Prod.fst he)
    simp [Act.mentions, Out.mentions, this]
  simp [h1]

theorem quiet_sig_usr1_handler (obj : Nat) (heap : Heap) (w : World)
    (h : obj ∉ w.gobject_list_state.objects.keys) :
    quiet_log obj (_sig_usr1_handler heap w).log ↔ quiet_log obj w.log := by
  unfold _sig_usr1_handler
  simp only [G_UNLOCK, quiet_act]
  rw [quiet_dump_object_list obj heap _ _ (by simpa [G_LOCK, g_fprintf, touch] using h)]
  simp [G_LOCK, g_fprintf, touch, Act.mentions, Out.mentions]

theorem quiet_print_still_alive (obj : Nat) (env : Env) (heap : Heap) (w : World)
    (h : obj ∉ w.gobject_list_state.objects.keys) :
    quiet_log obj (print_still_alive env heap w).log ↔ quiet_log obj w.log := by
  unfold print_still_alive
  simp only [G_UNLOCK, quiet_act, quiet_print_still_alive_refs]
  rw [quiet_dump_object_list obj heap _ _ (by simpa [G_LOCK, g_fprintf, touch] using h)]
  simp [G_LOCK, g_fprintf, touch, Act.mentions, Out.mentions]

theorem quiet_sig_usr2_handler (obj : Nat) (heap : Heap) (w : World)
    (ha : obj ∉ w.gobject_list_state.added.keys)
    (hr : obj ∉ w.gobject_list_state.removed.keys) :
    quiet_log obj (_sig_usr2_handler heap w).log ↔ quiet_log obj w.log := by
  rw [_sig_usr2_handler_log]
  simp only [quiet_log_append]
  have h1 : quiet_log obj ((dump_lines heap w.gobject_list_state.added).map Act.print) := by
    intro a hm
    simp only [dump_lines, List.map_map, List.mem_map, List.mem_filter, Function.comp] at hm
    obtain ⟨o, ⟨ho, _⟩, rfl⟩ := hm
    have : o ≠ obj := fun c => ha (c ▸ ho)
    simp [Act.mentions, Out.mentions, this]
  have h2 : quiet_log obj ((w.gobject_list_state.removed.entries.map
      (fun e => Out.removed_object e.1 e.2)).map Act.print) := by
    intro a hm
    simp only [List.map_map, List.mem_map, Function.comp] at hm
    obtain ⟨e, he, rfl⟩ := hm
    have : e.1 ≠ obj := fun c => hr (c ▸ List.mem_map_of_mem Prod.fst he)
    simp [Act.mentions, Out.mentions, this]
  rw [List.map_map] at h2
  simp [h1, h2, Act.mentions, Out.mentions]

theorem quiet_object_finalized (obj : Nat) (env : Env) (o : Nat) (obj_name : String)
    (w : World) (h : o ≠ obj) :
    quiet_log obj (_object_finalized env o obj_name w).log ↔ quiet_log obj w.log := by
  unfold _object_finalized
  simp only [display_filter_fst, display_filter_snd, G_LOCK, G_UNLOCK, g_mutex_lock,
    g_mutex_unlock, g_fprintf, touch]
  split <;> split <;> (try split) <;> simp [Act.mentions, Out.mentions, h]

theorem quiet_g_object_new (obj : Nat) (env : Env) (o : Nat) (obj_name : String)
    (w : World) (h : o ≠ obj) :
    quiet_log obj (g_object_new env o obj_name w).log ↔ quiet_log obj w.log := by
  unfold g_object_new
  simp only [display_filter_fst, display_filter_snd, get_func, G_LOCK, G_UNLOCK, g_mutex_lock,
    g_mutex_unlock, g_fprintf, touch]
  split
  · split
    · split <;> simp [Act.mentions, Out.mentions, h]
    · simp [Act.mentions, Out.mentions, h]
  · simp [Act.mentions]

theorem quiet_g_object_ref (obj : Nat) (env : Env) (o : Nat) (obj_name : String)
    (rc rc' : Nat) (w : World) (h : o ≠ obj) :
    quiet_log obj (g_object_ref env o obj_name rc rc' w).log ↔ quiet_log obj w.log := by
  unfold g_object_ref
  simp only [display_filter_fst, display_filter_snd, get_func, G_LOCK, G_UNLOCK, g_mutex_lock,
    g_mutex_unlock, g_fprintf, touch]
  split
  · split
    · split <;> simp [Act.mentions, Out.mentions, h]
    · simp [Act.mentions]
  · simp [Act.mentions]

theorem quiet_g_object_unref (obj : Nat) (env : Env) (o : Nat) (obj_name : String)
    (rc : Nat) (w : World) (h : o ≠ obj) :
    quiet_log obj (g_object_unref env o obj_name rc w).log ↔ quiet_log obj w.log := by
  unfold g_object_unref
  simp only [display_filter_fst, display_filter_snd, get_func, G_LOCK, G_UNLOCK, g_mutex_lock,
    g_mutex_unlock, g_fprintf, touch]
  split
  · split
    · split <;> simp [Act.mentions, Out.mentions, h]
    · simp [Act.mentions]
  · simp [Act.mentions]

theorem object_filter_rejects (env : Env) (F T : String) (hF : env.filter = some F)
    (hT : T ≠ F) : object_filter env T = false := by
  unfold object_filter
  rw [hF]
  simpa using fun c : F = T => hT c.symm

theorem never_seen_step (env : Env) (F : String) (hF : env.filter = some F) (obj : Nat)
    (w : World) (e : Event) (h : never_seen obj w)
    (hrej : Event.rejected_for F obj e = true)
    (hfin : ∀ obj_name, e = Event.finalize obj obj_name →
      obj ∈ w.gobject_list_state.objects.keys) :
    never_seen obj (step env w e) := by
  obtain ⟨ho, ha, hr, hq⟩ := h
  have ht := step_tracked env w e
  have hto := congrArg Prod.fst ht
  have hta := congrArg (fun t => t.2.1) ht
  have htr := congrArg (fun t => t.2.2) ht
  change (step env w e).gobject_list_state.objects = _ at hto
  change (step env w e).gobject_list_state.added = _ at hta
  change (step env w e).gobject_list_state.removed = _ at htr
  unfold never_seen
  rw [hto, hta, htr]
  cases e with
  | create o n =>
    by_cases hoo : o = obj
    · subst hoo
      have hn : n ≠ F := by simpa [Event.rejected_for] using hrej
      have hf := object_filter_rejects env F n hF hn
      refine ⟨?_, ?_, ?_, ?_⟩
      · simpa [hf, World.tracked] using ho
      · simpa [hf, World.tracked] using ha
      · simpa [hf, World.tracked] using hr
      · show quiet_log o (g_object_new env o n w).log
        rw [g_object_new_of_filtered env o n w hf]
        simp [hq, Act.mentions]
    · have hne : ¬ obj = o := fun c => hoo c.symm
      refine ⟨?_, ?_, ?_, (quiet_g_object_new obj env o n w hoo).mpr hq⟩
      · simp only; split
        · simp [mem_keys_insert, hne, ho]
        · simpa [World.tracked] using ho
      · simp only; split
        · simp [mem_keys_insert, hne, ha]
        · simpa [World.tracked] using ha
      · simp only; split
        · exact hr
        · simpa [World.tracked] using hr
  | ref o n rc rc' =>
    refine ⟨ho, ha, hr, ?_⟩
    show quiet_log obj (g_object_ref env o n rc rc' w).log
    by_cases hoo : o = obj
    · subst hoo
      have hn : n ≠ F := by simpa [Event.rejected_for] using hrej
      rw [g_object_ref_of_filtered env o n rc rc' w (object_filter_rejects env F n hF hn)]
      simp [hq, Act.mentions]
    · exact (quiet_g_object_ref obj env o n rc rc' w hoo).mpr hq
  | unref o n rc =>
    refine ⟨ho, ha, hr, ?_⟩
    show quiet_log obj (g_object_unref env o n rc w).log
    by_cases hoo : o = obj
    · subst hoo
      have hn : n ≠ F := by simpa [Event.rejected_for] using hrej
      rw [g_object_unref_of_filtered env o n rc w (object_filter_rejects env F n hF hn)]
      simp [hq, Act.mentions]
    · exact (quiet_g_object_unref obj env o n rc w hoo).mpr hq
  | finalize o n =>
    by_cases hoo : o = obj
    · subst hoo
      exact absurd (hfin n rfl) ho
    · have hne : ¬ obj = o := fun c => hoo c.symm
      refine ⟨?_, ?_, ?_, (quiet_object_finalized obj env o n w hoo).mpr hq⟩
      · simp [mem_keys_remove, ho]
      · simp [mem_keys_remove, ha]
      · simp only; split
        · simp [mem_keys_insert, hne, hr]
        · exact hr
  | usr1 heap =>
    exact ⟨ho, ha, hr, (quiet_sig_usr1_handler obj heap w ho).mpr hq⟩
  | usr2 heap =>
    refine ⟨ho, ?_, ?_, (quiet_sig_usr2_handler obj heap w ha hr).mpr hq⟩
    · simp [g_hash_table_new, GHashTable.keys]
    · simp [g_hash_table_new, GHashTable.keys]
  | still_alive heap =>
    exact ⟨ho, ha, hr, (quiet_print_still_alive obj env heap w ho).mpr hq⟩

theorem never_seen_run (env : Env) (F : String) (hF : env.filter = some F) (obj : Nat)
    (events : List Event) (w : World) (h : never_seen obj w)
    (hreg : finalize_only_registered env events w = true)
    (hrej : events.all (Event.rejected_for F obj) = true) :
    never_seen obj (run env events w) := by
  induction events generalizing w with
  | nil => exact h
  | cons e events ih =>
    simp only [finalize_only_registered, Bool.and_eq_true] at hreg
    simp only [List.all_cons, Bool.and_eq_true] at hrej
    have hfin : ∀ obj_name, e = Event.finalize obj obj_name →
        obj ∈ w.gobject_list_state.objects.keys := by
      intro n hn
      subst hn
      simpa using hreg.1
    exact ih (step env w e) (never_seen_step env F hF obj w e h hrej.1 hfin) hreg.2 hrej.2

theorem never_seen_init (obj : Nat) : never_seen obj World.init := by
  simp [never_seen, World.init, g_hash_table_new, GHashTable.keys]

theorem printed_of_quiet (obj : Nat) (w : World) (h : quiet_log obj w.log) :
    ∀ o ∈ w.printed, Out.mentions obj o = false := by
  intro o ho
  rw [printed_eq, List.mem_filterMap] at ho
  obtain ⟨a, ha, hl⟩ := ho
  cases a <;> simp only [Act.line, reduceCtorEq] at hl
  cases hl
  exact h _ ha

theorem no_finalize_of_never_seen (env : Env) (F : String) (hF : env.filter = some F)
    (obj : Nat) (events : List Event) (w : World) (h : never_seen obj w)
    (hreg : finalize_only_registered env events w = true)
    (hrej : events.all (Event.rejected_for F obj) = true) :
    ∀ obj_name, Event.finalize obj obj_name ∉ events := by
  induction events generalizing w with
  | nil => intro n hn; cases hn
  | cons e events ih =>
    simp only [finalize_only_registered, Bool.and_eq_true] at hreg
    simp only [List.all_cons, Bool.and_eq_true] at hrej
    have hfin : ∀ obj_name, e = Event.finalize obj obj_name →
        obj ∈ w.gobject_list_state.objects.keys := by
      intro n hn
      subst hn
      simpa using hreg.1
    intro n hn
    rcases List.mem_cons.mp hn with he | hm
    · exact h.1 (hfin n he.symm)
    · exact ih (step env w e) (never_seen_step env F hF obj w e h hrej.1 hfin) hreg.2 hrej.2 n hm

/-- C4: with the filter set to `F`, for every type name `T` other than `F` and
every identity of that type, `g_object_new`, `g_object_ref` and
`g_object_unref` only take and release the lock (and look the identity up in
`objects`): they leave the three tables unchanged, register no finalize callback
and print nothing. `_object_finalized` is that callback, called only for
identities that are in `objects`: in every sequence of events from the initial
world where that is so, an identity that is created, reffed and unreffed only
under type names other than `F` is never finalized, is in none of `objects`,
`added` and `removed` afterwards, no printed line names it and no callback is
registered for it. `object_filter` accepts a name exactly when no filter is set
or the name equals the filter string. -/
theorem C4_filter (env : Env) (F T : String) (hF : env.filter = some F) (hT : T ≠ F)
    (obj : Nat) (ref_count new_ref_count : Nat) (w : World) :
    (g_object_new env obj T w =
        { w with log := w.log ++ [Act.lock, Act.unlock, Act.lock, Act.access Resource.objects,
            Act.unlock] }
      ∧ (g_object_new env obj T w).tracked = w.tracked
      ∧ (g_object_new env obj T w).printed = w.printed)
    ∧ (g_object_ref env obj T ref_count new_ref_count w =
        { w with log := w.log ++ [Act.lock, Act.unlock] }
      ∧ (g_object_ref env obj T ref_count new_ref_count w).tracked = w.tracked
      ∧ (g_object_ref env obj T ref_count new_ref_count w).printed = w.printed)
    ∧ (g_object_unref env obj T ref_count w =
        { w with log := w.log ++ [Act.lock, Act.unlock] }
      ∧ (g_object_unref env obj T ref_count w).tracked = w.tracked
      ∧ (g_object_unref env obj T ref_count w).printed = w.printed)
    ∧ (∀ events : List Event,
        finalize_only_registered env events World.init = true →
        events.all (Event.rejected_for F obj) = true →
          (∀ obj_name, Event.finalize obj obj_name ∉ events)
          ∧ obj ∉ (run env events World.init).gobject_list_state.objects.keys
          ∧ obj ∉ (run env events World.init).gobject_list_state.added.keys
          ∧ obj ∉ (run env events World.init).gobject_list_state.removed.keys
          ∧ (∀ o ∈ (run env events World.init).printed, Out.mentions obj o = false)
          ∧ Act.weak_ref obj ∉ (run env events World.init).log)
    ∧ (∀ (env' : Env) (obj_name : String),
        object_filter env' obj_name = true ↔
          env'.filter = none ∨ env'.filter = some obj_name) := by
  have hf : object_filter env T = false := object_filter_rejects env F T hF hT
  refine ⟨⟨g_object_new_of_filtered env obj T w hf, ?_, ?_⟩,
    ⟨g_object_ref_of_filtered env obj T _ _ w hf, ?_, ?_⟩,
    ⟨g_object_unref_of_filtered env obj T _ w hf, ?_, ?_⟩, ?_, object_filter_iff⟩
  · rw [g_object_new_of_filtered env obj T w hf]; rfl
  · rw [g_object_new_of_filtered env obj T w hf]; simp [printed_eq, Act.line]
  · rw [g_object_ref_of_filtered env obj T _ _ w hf]; rfl
  · rw [g_object_ref_of_filtered env obj T _ _ w hf]; simp [printed_eq, Act.line]
  · rw [g_object_unref_of_filtered env obj T _ w hf]; rfl
  · rw [g_object_unref_of_filtered env obj T _ w hf]; simp [printed_eq, Act.line]
  · intro events hreg hrej
    obtain ⟨ho, ha, hr, hq⟩ :=
      never_seen_run env F hF obj events World.init (never_seen_init obj) hreg hrej
    refine ⟨no_finalize_of_never_seen env F hF obj events World.init (never_seen_init obj)
      hreg hrej, ho, ha, hr, printed_of_quiet obj _ hq, ?_⟩
    intro hm
    have := hq _ hm
    simp [Act.mentions] at this

/-- C4 on a concrete run with GOBJECT_LIST_FILTER=Widget: creating a "Gadget" at
address 1 in the initial world changes no table and prints nothing, and after
the events of `Event.sample` (the "Gadget" 1 is created, reffed and unreffed, a
"Widget" lives and dies at address 2, with dumps in between) identity 1 is in
none of the tables and no printed line names it, while the "Widget" 2 is in
`objects` once it has been created. -/
theorem C4_filter_witness :
    Env.widget.filter = some "Widget" ∧ "Gadget" ≠ "Widget"
    ∧ ((g_object_new Env.widget 1 "Gadget" World.init).tracked = World.init.tracked
      ∧ (g_object_new Env.widget 1 "Gadget" World.init).printed = World.init.printed)
    ∧ finalize_only_registered Env.widget Event.sample World.init = true
    ∧ Event.sample.all (Event.rejected_for "Widget" 1) = true
    ∧ 2 ∈ (run Env.widget (Event.sample.take 3) World.init).gobject_list_state.objects.keys
    ∧ 1 ∉ (run Env.widget Event.sample World.init).gobject_list_state.objects.keys
    ∧ 1 ∉ (run Env.widget Event.sample World.init).gobject_list_state.removed.keys
    ∧ (∀ o ∈ (run Env.widget Event.sample World.init).printed, Out.mentions 1 o = false) :=
  ⟨rfl, by decide,
    (C4_filter Env.widget "Widget" "Gadget" rfl (by decide) 1 1 2 World.init).1.2,
    by decide, by decide, by decide,
    ((C4_filter Env.widget "Widget" "Gadget" rfl (by decide) 1 1 2 World.init).2.2.2.1
      Event.sample (by decide) (by decide)).2.1,
    ((C4_filter Env.widget "Widget" "Gadget" rfl (by decide) 1 1 2 World.init).2.2.2.1
      Event.sample (by decide) (by decide)).2.2.2.1,
    ((C4_filter Env.widget "Widget" "Gadget" rfl (by decide) 1 1 2 World.init).2.2.2.1
      Event.sample (by decide) (by decide)).2.2.2.2.1⟩

/-! ## C8: unknown display-flag tokens -/

theorem display_flags_match_unknown (token : String) (m : List (String × Nat))
    (h : ∀ item ∈ m, g_ascii_strcasecmp token item.1 ≠ 0) (flags : Nat) :
    display_flags_match token m flags = flags := by
  induction m with
  | nil => rfl
  | cons item rest ih =>
    unfold display_flags_match
    rw [if_neg (h item (List.mem_cons_self _ _))]
    exact ih (fun i hi => h i (List.mem_cons_of_mem _ hi))

theorem display_flags_loop_append (a b : List String) (flags : Nat) :
    display_flags_loop (a ++ b) flags = display_flags_loop b (display_flags_loop a flags) := by
  induction a generalizing flags with
  | nil => rfl
  | cons t ts ih =>
    show display_flags_loop (ts ++ b) _ = display_flags_loop b (display_flags_loop ts _)
    exact ih _

theorem display_flags_loop_unknown (pre post : List String) (token : String)
    (h : unknown_token token) (flags : Nat) :
    display_flags_loop (pre ++ token :: post) flags = display_flags_loop (pre ++ post) flags := by
  rw [display_flags_loop_append, display_flags_loop_append]
  conv_lhs => unfold display_flags_loop
  rw [display_flags_match_unknown token display_flags_map h]

theorem display_flags_match_eq (token : String) (m : List (String × Nat)) (flags : Nat) :
    display_flags_match token m flags =
      match (m.find? (fun item => decide (g_ascii_strcasecmp token item.1 = 0))).map Prod.snd with
      | some flag => flags ||| flag
      | none => flags := by
  induction m with
  | nil => rfl
  | cons item rest ih =>
    unfold display_flags_match
    by_cases h : g_ascii_strcasecmp token item.1 = 0
    · simp [h, List.find?_cons]
    · simp only [h, if_false, List.find?_cons, decide_False, ih]

theorem display_flags_loop_eq_foldl (tokens : List String) (flags : Nat) :
    display_flags_loop tokens flags =
      (tokens.filterMap token_flag).foldl (fun acc flag => acc ||| flag) flags := by
  induction tokens generalizing flags with
  | nil => rfl
  | cons t ts ih =>
    unfold display_flags_loop
    rw [ih, display_flags_match_eq]
    cases h : token_flag t with
    | none =>
      rw [List.filterMap_cons_none h]
      unfold token_flag at h
      rw [h]
    | some flag =>
      rw [List.filterMap_cons_some h]
      unfold token_flag at h
      rw [h]
      rfl

theorem strcasecmp_chars_eq_zero (l1 l2 : List Char)
    (h1 : ∀ c ∈ l1, c.toNat ≠ 0) (h2 : ∀ c ∈ l2, c.toNat ≠ 0) :
    strcasecmp_chars l1 l2 = 0 ↔
      l1.map (fun c => g_ascii_tolower c.toNat) = l2.map (fun c => g_ascii_tolower c.toNat) := by
  induction l1 generalizing l2 with
  | nil =>
    cases l2 with
    | nil => simp [strcasecmp_chars]
    | cons c2 s2 =>
      have := h2 c2 (List.mem_cons_self _ _)
      simp only [strcasecmp_chars, List.map_nil, List.map_cons]
      constructor
      · intro h; omega
      · intro h; cases h
  | cons c1 s1 ih =>
    cases l2 with
    | nil =>
      have := h1 c1 (List.mem_cons_self _ _)
      simp only [strcasecmp_chars, List.map_nil, List.map_cons]
      constructor
      · intro h; omega
      · intro h; cases h
    | cons c2 s2 =>
      simp only [strcasecmp_chars, List.map_cons, List.cons.injEq]
      by_cases hc : g_ascii_tolower c1.toNat = g_ascii_tolower c2.toNat
      · simp only [hc, ne_eq, not_true_eq_false, if_false, true_and]
        exact ih s2 (fun c h => h1 c (List.mem_cons_of_mem _ h))
          (fun c h => h2 c (List.mem_cons_of_mem _ h))
      · simp only [ne_eq, hc, not_false_eq_true, if_true, false_and, iff_false]
        omega

/-- C8 as stated fails for the empty token list: "bogus" matches no name of the
vocabulary, the empty list resolves to the create-only default, and the list
holding only "bogus" resolves to the empty mask; so GOBJECT_LIST_DISPLAY=bogus
gives mask 0 where GOBJECT_LIST_DISPLAY set to the empty string gives mask 1. -/
theorem C8_counterexample :
    ¬ unknown_ignored_as_stated [] [] "bogus"
    ∧ display_flags_resolve (some "") DISPLAY_FLAG_DEFAULT = DISPLAY_FLAG_CREATE
    ∧ display_flags_resolve (some "bogus") DISPLAY_FLAG_DEFAULT = DISPLAY_FLAG_NONE := by
  refine ⟨?_, by decide, by decide⟩
  intro h
  exact absurd (h (by decide)) (by decide)

/-- C8, amended: an unknown token inserted at any position of a non-empty token
list leaves the resolved mask unchanged; inserted into the empty list it turns
the create-only default into the empty mask. The mask of a non-empty list is the
bitwise OR of the flags of its recognised tokens, the mask of the empty list is
the create-only default, a token is unknown exactly when it has no flag, and
tokens are matched up to ASCII case. -/
theorem C8_unknown_tokens (pre post : List String) (token : String)
    (h : unknown_token token) :
    (pre ++ post ≠ [] →
      display_flags_parse (pre ++ token :: post) DISPLAY_FLAG_DEFAULT
        = display_flags_parse (pre ++ post) DISPLAY_FLAG_DEFAULT)
    ∧ display_flags_parse [token] DISPLAY_FLAG_DEFAULT = DISPLAY_FLAG_NONE
    ∧ display_flags_parse [] DISPLAY_FLAG_DEFAULT = DISPLAY_FLAG_CREATE
    ∧ (∀ tokens : List String, tokens ≠ [] →
        display_flags_parse tokens DISPLAY_FLAG_DEFAULT
          = (tokens.filterMap token_flag).foldl (fun acc flag => acc ||| flag) 0)
    ∧ (∀ t : String, token_flag t = none ↔ unknown_token t)
    ∧ (∀ s1 s2 : String, c_string s1 → c_string s2 →
        (g_ascii_strcasecmp s1 s2 = 0 ↔ ascii_lower s1 = ascii_lower s2)) := by
  refine ⟨?_, ?_, rfl, ?_, ?_, ?_⟩
  · intro hne
    have h1 : (pre ++ token :: post).length > 0 := by simp
    have h2 : (pre ++ post).length > 0 := List.length_pos.mpr hne
    unfold display_flags_parse
    rw [if_pos h1, if_pos h2]
    exact display_flags_loop_unknown pre post token h 0
  · unfold display_flags_parse
    simp only [List.length_singleton, gt_iff_lt, Nat.lt_one_iff, Nat.pos_of_ne_zero, if_true,
      display_flags_loop, Nat.zero_lt_one]
    rw [display_flags_match_unknown token display_flags_map h]
    rfl
  · intro tokens hne
    unfold display_flags_parse
    rw [if_pos (List.length_pos.mpr hne)]
    exact display_flags_loop_eq_foldl tokens 0
  · intro t
    unfold token_flag unknown_token
    simp only [Option.map_eq_none', List.find?_eq_none, decide_eq_true_eq]
  · intro s1 s2 h1 h2
    exact strcasecmp_chars_eq_zero s1.data s2.data h1 h2

/-- C8, amended, on a concrete list: "bogus" is unknown, and inserting it
between "Refs" and "backtrace" leaves the mask at REFS | BACKTRACE. -/
theorem C8_unknown_tokens_witness :
    unknown_token "bogus" ∧ ["Refs"] ++ ["backtrace"] ≠ []
    ∧ display_flags_parse (["Refs"] ++ "bogus" :: ["backtrace"]) DISPLAY_FLAG_DEFAULT
        = display_flags_parse (["Refs"] ++ ["backtrace"]) DISPLAY_FLAG_DEFAULT :=
  ⟨by decide, by decide,
    (C8_unknown_tokens ["Refs"] ["backtrace"] "bogus" (by decide)).1 (by decide)⟩

/-! ## C9: the locking discipline -/

theorem display_filter_parse_log_access (env : Env) (w : World) :
    ∃ acts, (display_filter_parse env w).log =
      w.log ++ Act.access Resource.display_flags :: acts := by
  unfold display_filter_parse
  simp only [touch, g_fprintf]
  split
  · exact ⟨[], rfl⟩
  · split <;> split <;> exact ⟨_, by simp only [act_log, List.append_assoc]; rfl⟩

theorem print_trace_frames_log (env : Env) (fs : List Frame) (n : Nat) (w : World) :
    ∃ acts, (print_trace_frames env fs n w).log = w.log ++ acts := by
  induction fs generalizing n w with
  | nil => exact ⟨[], by simp [print_trace_frames]⟩
  | cons f fs ih =>
    unfold print_trace_frames
    split
    · exact ⟨[Act.print (Out.frame_error f.result)], rfl⟩
    · obtain ⟨acts, h⟩ := ih (n + 1) (g_fprintf (Out.frame n f.name (f.off % 2 ^ 32)) w)
      exact ⟨Act.print (Out.frame n f.name (f.off % 2 ^ 32)) :: acts, by
        rw [h]; simp [g_fprintf]⟩

theorem print_trace_log (env : Env) (w : World) :
    ∃ acts, (print_trace env w).log = w.log ++ acts := by
  unfold print_trace
  simp only [display_filter_fst, display_filter_snd]
  split
  · obtain ⟨a1, h1⟩ := display_filter_parse_log env w
    split
    · exact ⟨a1, h1⟩
    · obtain ⟨a2, h2⟩ := print_trace_frames_log env env.stack 0 (display_filter_parse env w)
      exact ⟨a1 ++ a2, by rw [h2, h1, List.append_assoc]⟩
  · exact ⟨[], by simp⟩

theorem save_trace_log (env : Env) (key : String) (is_ref : Bool) (w : World) :
    ∃ acts, (save_trace env key is_ref w).log = w.log ++ acts := by
  unfold save_trace
  simp only [display_filter_fst, display_filter_snd, touch]
  obtain ⟨a1, h1⟩ := display_filter_parse_log env w
  split
  · exact ⟨a1, h1⟩
  · exact ⟨a1 ++ [Act.access Resource.origins, Act.access Resource.origins], by simp [h1]⟩

theorem traced_output_log (env : Env) (o : Out) (obj_name : String) (is_ref : Bool)
    (w : World) :
    ∃ acts,
      (g_mutex_unlock
        (if (env.have_libunwind && env.with_origins_trace) = true then
          save_trace env obj_name is_ref (print_trace env (g_fprintf o (g_mutex_lock w)))
        else print_trace env (g_fprintf o (g_mutex_lock w)))).log = w.log ++ acts := by
  obtain ⟨a1, h1⟩ := print_trace_log env (g_fprintf o (g_mutex_lock w))
  have h0 : (g_fprintf o (g_mutex_lock w)).log = w.log ++ [Act.output_lock, Act.print o] := by
    simp [g_fprintf, g_mutex_lock]
  rw [h0] at h1
  split
  · obtain ⟨a2, h2⟩ := save_trace_log env obj_name is_ref
      (print_trace env (g_fprintf o (g_mutex_lock w)))
    rw [h1] at h2
    exact ⟨[Act.output_lock, Act.print o] ++ a1 ++ a2 ++ [Act.output_unlock], by
      simp only [g_mutex_unlock, act_log, h2, List.append_assoc]⟩
  · exact ⟨[Act.output_lock, Act.print o] ++ a1 ++ [Act.output_unlock], by
      simp only [g_mutex_unlock, act_log, h1, List.append_assoc]⟩

theorem g_object_ref_log (env : Env) (obj : Nat) (obj_name : String) (rc rc' : Nat)
    (w : World) :
    ∃ rest, (g_object_ref env obj obj_name rc rc' w).log =
      w.log ++ [Act.lock, Act.unlock] ++
        (if object_filter env obj_name = true then Act.access Resource.display_flags :: rest
         else []) := by
  unfold g_object_ref
  simp only [display_filter_fst, display_filter_snd]
  obtain ⟨a1, h1⟩ := display_filter_parse_log_access env (get_func w)
  have hg : (get_func w).log = w.log ++ [Act.lock, Act.unlock] := by
    simp [get_func, G_LOCK, G_UNLOCK]
  split
  · rename_i hf
    split
    · obtain ⟨a2, h2⟩ := traced_output_log env (Out.reffed obj obj_name rc rc') obj_name true
        (display_filter_parse env (get_func w))
      exact ⟨a1 ++ a2, by rw [h2, h1, hg]; simp⟩
    · exact ⟨a1, by rw [h1, hg]⟩
  · exact ⟨[], by rw [hg]; simp⟩

theorem g_object_unref_log (env : Env) (obj : Nat) (obj_name : String) (rc : Nat)
    (w : World) :
    ∃ rest, (g_object_unref env obj obj_name rc w).log =
      w.log ++ [Act.lock, Act.unlock] ++
        (if object_filter env obj_name = true then Act.access Resource.display_flags :: rest
         else []) := by
  unfold g_object_unref
  simp only [display_filter_fst, display_filter_snd]
  obtain ⟨a1, h1⟩ := display_filter_parse_log_access env (get_func w)
  have hg : (get_func w).log = w.log ++ [Act.lock, Act.unlock] := by
    simp [get_func, G_LOCK, G_UNLOCK]
  split
  · rename_i hf
    split
    · obtain ⟨a2, h2⟩ := traced_output_log env
        (Out.unreffed obj obj_name rc ((rc + 2 ^ 32 - 1) % 2 ^ 32)) obj_name false
        (display_filter_parse env (get_func w))
      exact ⟨a1 ++ a2, by rw [h2, h1, hg]; simp⟩
    · exact ⟨a1, by rw [h1, hg]⟩
  · exact ⟨[], by rw [hg]; simp⟩

/-- C9 fails for `g_object_ref` and `g_object_unref`. Every call of either
takes and releases `gobject_list` inside `get_func` only and, when the type name
passes the filter, goes on to read (on the first call: write) the statics of
`display_filter` without the lock. In a build with libunwind and origin tracing,
run with GOBJECT_LIST_DISPLAY=all, the call also reads and writes the table
`origins` through `save_trace`, holding `output_mutex` but not `gobject_list`.
`g_object_new`, `_object_finalized` and the three dump handlers, run in the same
setting, touch the state only under the lock. -/
theorem C9_ref_unref_unguarded :
    (∀ (env : Env) (obj : Nat) (obj_name : String) (ref_count new_ref_count : Nat) (w : World),
      ∃ rest, (g_object_ref env obj obj_name ref_count new_ref_count w).log =
        w.log ++ [Act.lock, Act.unlock] ++
          (if object_filter env obj_name = true then Act.access Resource.display_flags :: rest
           else []))
    ∧ (∀ (env : Env) (obj : Nat) (obj_name : String) (ref_count : Nat) (w : World),
      ∃ rest, (g_object_unref env obj obj_name ref_count w).log =
        w.log ++ [Act.lock, Act.unlock] ++
          (if object_filter env obj_name = true then Act.access Resource.display_flags :: rest
           else []))
    ∧ (∀ rest : List Act,
        lock_guarded ([Act.lock, Act.unlock] ++ Act.access Resource.display_flags :: rest) false
          = false)
    ∧ (g_object_ref Env.tracing 1 "Foo" 1 2 World.init).log =
      [Act.lock, Act.unlock, Act.access Resource.display_flags, Act.output_lock,
       Act.print (Out.reffed 1 "Foo" 1 2), Act.access Resource.display_flags,
       Act.print (Out.frame 0 "main" 0), Act.access Resource.display_flags,
       Act.access Resource.origins, Act.access Resource.origins, Act.output_unlock]
    ∧ lock_guarded (g_object_ref Env.tracing 1 "Foo" 1 2 World.init).log false = false
    ∧ lock_guarded (g_object_unref Env.tracing 1 "Foo" 2 World.init).log false = false
    ∧ lock_guarded (g_object_ref Env.refs_only 1 "Foo" 1 2 World.init).log false = false
    ∧ lock_guarded (g_object_new Env.tracing 1 "Foo" World.init).log false = true
    ∧ lock_guarded (_object_finalized Env.tracing 1 "Foo" World.init).log false = true
    ∧ lock_guarded (_sig_usr1_handler Heap.foo World.address_reused).log false = true
    ∧ lock_guarded (_sig_usr2_handler Heap.foo World.address_reused).log false = true
    ∧ lock_guarded (print_still_alive Env.tracing Heap.foo World.address_reused).log false
        = true := by
  refine ⟨g_object_ref_log, g_object_unref_log, fun rest => by simp [lock_guarded],
    by decide, by decide, by decide, by decide, by decide, by decide, by decide,
    by decide, by decide⟩

end GObjectList
